import Mathlib

/-!
# Daily Summary setting (`server/mscalendar/settings_daily_summary.go`)

A shallow embedding of the daily-summary setting of the MS Calendar plugin:
the option generators of the time picker (`makeHOptions`, `makeMOptions`,
`makeAPMOptions`), the framework-facing operations `Set`, `Get`,
`GetSlackAttachments`, and the constructor `NewDailySummarySetting`.

Modelling conventions.

* A Go `string` is a finite sequence of bytes, so `GoString` is `List UInt8`.
  String literals of the source are written `go "..."` (their UTF-8 bytes).
  Byte indexing and slicing (`x[:2]`, `x[2:]`) are therefore exact.
* An `interface{}` value is a `Value`: its dynamic type is the constructor.
* A Go `error` is a `GoError`; `nil` is `none` of `Option GoError`.
* A run-time panic (index or slice out of range) is `Except.error` of
  `Panic`; a normal return is `Except.ok`.
* The store and the timezone provider are collaborators that are not part of
  the file: they are parameters of the model, non-nil values whose calls
  return.  The store is a state machine over an arbitrary state type; every
  call made to it is also recorded in a call log, so that "is called" /
  "is never called" can be stated.  The provider is a function of the user id.
-/

namespace mscalendar

/-! ## Go strings -/

/-- Go strings are byte sequences. -/
abbrev GoString := List UInt8

/-- The bytes of a source-code string literal (UTF-8). -/
def go (s : String) : GoString := s.data.flatMap String.utf8EncodeChar

/-- Go `len(x)`. -/
def len (x : GoString) : Nat := x.length

/-- A run-time panic of the Go program. -/
inductive Panic where
  | indexOutOfRange
  | sliceOutOfRange
  | interfaceConversion
  deriving DecidableEq, Repr

deriving instance DecidableEq for Except

/-- Go `x[i]` on a slice of strings: panics when `i` is out of range. -/
def index (xs : List GoString) (i : Nat) : Except Panic GoString :=
  match xs.get? i with
  | some x => Except.ok x
  | none => Except.error Panic.indexOutOfRange

/-- Go `x[:n]` on a string: panics when `n > len(x)`. -/
def sliceTo (x : GoString) (n : Nat) : Except Panic GoString :=
  if n ≤ len x then Except.ok (x.take n) else Except.error Panic.sliceOutOfRange

/-- Go `x[n:]` on a string: panics when `n > len(x)`. -/
def sliceFrom (x : GoString) (n : Nat) : Except Panic GoString :=
  if n ≤ len x then Except.ok (x.drop n) else Except.error Panic.sliceOutOfRange

/-- Go `strings.Split(x, sep)` for a separator `sep` of one byte: the pieces of
`x` between the occurrences of `sep`, in order; one more piece than there are
occurrences (so a string without `sep`, the empty string included, gives one
piece). -/
def stringsSplit (sep : UInt8) : GoString → List GoString
  | [] => [[]]
  | c :: cs =>
    if c = sep then [] :: stringsSplit sep cs
    else
      match stringsSplit sep cs with
      | [] => [[c]]
      | p :: ps => (c :: p) :: ps

/-- Go `fmt.Sprintf("%d", i)` for a non-negative `i`: unpadded decimal. -/
def sprintfD (i : Nat) : GoString := go (Nat.repr i)

/-- Go `fmt.Sprintf("%02d", i)` for a non-negative `i`: decimal, padded with
zeros on the left to at least two digits. -/
def sprintf02D (i : Nat) : GoString :=
  let d := sprintfD i
  if len d < 2 then List.replicate (2 - len d) 48 ++ d else d

/-- Go `fmt.Sprintf("%s:%s%s %s", a, b, c, d)`. -/
def sprintfTime (a b c d : GoString) : GoString :=
  a ++ go ":" ++ b ++ c ++ go " " ++ d

/-! ## Data model -/

/-- A Go `error` value.  `errorsNew msg` is the value made by `errors.New(msg)`;
`foreign tag msg` is an error made elsewhere (by the store or by the timezone
provider), of some other dynamic type identified by `tag`. -/
inductive GoError where
  | errorsNew (msg : GoString)
  | foreign (tag : Nat) (msg : GoString)
  deriving DecidableEq, Repr

/-- Go `err.Error()`. -/
def GoError.Error : GoError → GoString
  | GoError.errorsNew msg => msg
  | GoError.foreign _ msg => msg

/-- The fields of `store.DailySummaryUserSettings` that this file reads. -/
structure DailySummaryUserSettings where
  PostTime : GoString
  Timezone : GoString
  Enable : Bool
  deriving DecidableEq, Repr

/-- A Go `interface{}` value, by dynamic type.  `dailySummary p` has dynamic
type `*store.DailySummaryUserSettings`; `p = none` is the nil pointer of that
type (the "not set" record).  `nil` is the nil interface value. -/
inductive Value where
  | nil
  | string (v : GoString)
  | bool (v : Bool)
  | int (v : Int)
  | dailySummary (p : Option DailySummaryUserSettings)
  | other (typeTag : Nat) (payload : Nat)
  deriving DecidableEq, Repr

/-- Go `model.PostActionOptions`. -/
structure PostActionOptions where
  Text : GoString
  Value : GoString
  deriving DecidableEq, Repr

/-- The two keys of `settingspanel` used in the context map of an action:
`settingspanel.ContextIDKey` and `settingspanel.ContextButtonValueKey`. -/
inductive ContextKey where
  | ContextIDKey
  | ContextButtonValueKey
  deriving DecidableEq, Repr

/-- Go `model.PostActionIntegration`; the `Context` map literal is kept as its
list of key/value entries. -/
structure PostActionIntegration where
  URL : GoString
  Context : List (ContextKey × Value)
  deriving DecidableEq, Repr

/-- Go `model.PostAction` (the fields this file sets; all others are zero).
The field `Type` is written `Type_`. -/
structure PostAction where
  Name : GoString
  Integration : PostActionIntegration
  Type_ : GoString
  Options : List PostActionOptions
  DefaultOption : GoString
  deriving DecidableEq, Repr

/-- Go `model.SlackAttachment` (the fields this file sets). -/
structure SlackAttachment where
  Title : GoString
  Text : GoString
  Actions : List PostAction
  deriving DecidableEq, Repr

/-- Map lookup in a context map. -/
def contextGet (ctx : List (ContextKey × Value)) (k : ContextKey) : Option Value :=
  (ctx.find? (fun e => decide (e.1 = k))).map (fun e => e.2)

/-! ## The store and the timezone provider -/

/-- An implementation of the interface `settingspanel.SettingStore` over a
state of type `σ`.  `SetSetting` may change the state; `GetSetting` reads it.
Both return what the Go methods return. -/
structure SettingStore (σ : Type) where
  SetSetting : σ → GoString → GoString → Value → σ × Option GoError
  GetSetting : σ → GoString → GoString → Value × Option GoError

/-- A call made on the store. -/
inductive StoreCall where
  | SetSetting (userID settingID : GoString) (value : Value)
  | GetSetting (userID settingID : GoString)
  deriving DecidableEq, Repr

/-- The store state together with the log of the calls made on the store. -/
structure World (σ : Type) where
  state : σ
  calls : List StoreCall

/-- Go `type dailySummarySetting struct`. -/
structure dailySummarySetting (σ : Type) where
  title : GoString
  description : GoString
  id : GoString
  dependsOn : GoString
  optionsH : List GoString
  optionsM : List GoString
  optionsAPM : List GoString
  store : SettingStore σ
  getTimezone : GoString → GoString × Option GoError

/-- Go `s.store.SetSetting(userID, id, value)`, recorded in the call log. -/
def callSetSetting {σ : Type} (s : dailySummarySetting σ) (w : World σ)
    (userID id : GoString) (value : Value) : Option GoError × World σ :=
  let r := s.store.SetSetting w.state userID id value
  (r.2, { state := r.1, calls := w.calls ++ [StoreCall.SetSetting userID id value] })

/-- Go `s.store.GetSetting(userID, id)`, recorded in the call log. -/
def callGetSetting {σ : Type} (s : dailySummarySetting σ) (w : World σ)
    (userID id : GoString) : (Value × Option GoError) × World σ :=
  (s.store.GetSetting w.state userID id,
   { state := w.state, calls := w.calls ++ [StoreCall.GetSetting userID id] })

/-! ## The setting -/

/-- Go `NewDailySummarySetting`.  `DailySummarySettingID` stands for the
constant `store.DailySummarySettingID`. -/
def NewDailySummarySetting {σ : Type} (DailySummarySettingID : GoString)
    (inStore : SettingStore σ) (getTimezone : GoString → GoString × Option GoError) :
    dailySummarySetting σ :=
  { title := go "Daily Summary"
    description := go "When do you want to receive the daily summary?\n If you update this setting, it will automatically update to your the timezone currently set on your calendar."
    id := DailySummarySettingID
    dependsOn := go ""
    store := inStore
    getTimezone := getTimezone
    -- for i := 0; i < 12; i++ { os.optionsH = append(os.optionsH, fmt.Sprintf("%d", i)) }
    optionsH := (List.range 12).foldl (fun acc i => acc ++ [sprintfD i]) []
    -- for i := 0; i < 4; i++ { os.optionsM = append(os.optionsM, fmt.Sprintf("%02d", i*15)) }
    optionsM := (List.range 4).foldl (fun acc i => acc ++ [sprintf02D (i * 15)]) []
    optionsAPM := [go "AM", go "PM"] }

/-- Go `Set`. -/
def Set {σ : Type} (s : dailySummarySetting σ) (userID : GoString) (value : Value)
    (w : World σ) : Option GoError × World σ :=
  match value with
  | Value.string _ =>
    let r := callSetSetting s w userID s.id value
    match r.1 with
    | some err => (some err, r.2)
    | none => (none, r.2)
  | _ => (some (GoError.errorsNew (go "trying to set Daily Summary Setting without a string value")), w)

/-- Go `Get`. -/
def Get {σ : Type} (s : dailySummarySetting σ) (userID : GoString)
    (w : World σ) : (Value × Option GoError) × World σ :=
  let r := callGetSetting s w userID s.id
  match r.1.2 with
  | some err => ((Value.nil, some err), r.2)
  | none =>
    match r.1.1 with
    | Value.dailySummary _ => ((r.1.1, none), r.2)
    | _ => ((Value.nil, some (GoError.errorsNew (go "current value is not a Daily Summary Setting"))), r.2)

/-- Go `GetID`. -/
def GetID {σ : Type} (s : dailySummarySetting σ) : GoString := s.id

/-- Go `GetTitle`. -/
def GetTitle {σ : Type} (s : dailySummarySetting σ) : GoString := s.title

/-- Go `GetDescription`. -/
def GetDescription {σ : Type} (s : dailySummarySetting σ) : GoString := s.description

/-- Go `GetDependency`. -/
def GetDependency {σ : Type} (s : dailySummarySetting σ) : GoString := s.dependsOn

/-- Go `IsDisabled`: `foreignValue == "false"`, the comparison of an interface
value with a string (equal dynamic type and equal value). -/
def IsDisabled {σ : Type} (_s : dailySummarySetting σ) (foreignValue : Value) : Bool :=
  decide (foreignValue = Value.string (go "false"))

/-- The loop of `makeHOptions`: `for i, o := range s.optionsH`. -/
def makeHOptionsLoop (minute apm timezone : GoString) :
    Nat → List GoString → List PostActionOptions → List PostActionOptions
  | _, [], out => out
  | i, o :: rest, out =>
    let o := if i = 0 ∧ apm = go "PM" then go "12" else o
    makeHOptionsLoop minute apm timezone (i + 1) rest
      (out ++ [{ Text := o, Value := sprintfTime o minute apm timezone }])

/-- Go `makeHOptions`. -/
def makeHOptions {σ : Type} (s : dailySummarySetting σ) (minute apm timezone : GoString) :
    List PostActionOptions :=
  makeHOptionsLoop minute apm timezone 0 s.optionsH []

/-- Go `makeMOptions`. -/
def makeMOptions {σ : Type} (s : dailySummarySetting σ) (hour apm timezone : GoString) :
    List PostActionOptions :=
  s.optionsM.foldl
    (fun out o => out ++ [{ Text := o, Value := sprintfTime hour o apm timezone }]) []

/-- Go `makeAPMOptions`. -/
def makeAPMOptions {σ : Type} (s : dailySummarySetting σ) (hour minute timezone : GoString) :
    Except Panic (List PostActionOptions) := do
  let out : List PostActionOptions := []
  let storeHour := if hour = go "12" then go "0" else hour
  let o ← index s.optionsAPM 0
  let out := out ++ [{ Text := o, Value := sprintfTime storeHour minute o timezone }]
  let storeHour := if hour = go "0" then go "12" else hour
  let o ← index s.optionsAPM 1
  let out := out ++ [{ Text := o, Value := sprintfTime storeHour minute o timezone }]
  return out

/-- The decoding of the stored post time in `GetSlackAttachments`:
`splitted := strings.Split(fullTime, ":")`, `currentH = splitted[0]`,
`currentM = splitted[1][:2]`, `currentAPM = splitted[1][2:]`.
The result is `(currentH, currentM, currentAPM)`. -/
def decodePostTime (fullTime : GoString) : Except Panic (GoString × GoString × GoString) := do
  let splitted := stringsSplit 58 fullTime
  let currentH ← index splitted 0
  let part ← index splitted 1
  let currentM ← sliceTo part 2
  let part ← index splitted 1
  let currentAPM ← sliceFrom part 2
  Except.ok (currentH, currentM, currentAPM)

/-- Go `GetSlackAttachments`.  The first component is the returned pair
(attachment pointer, error), or the panic that ends the call; the second is the
world after the call. -/
def GetSlackAttachments {σ : Type} (s : dailySummarySetting σ)
    (userID settingHandler : GoString) (disabled : Bool) (w : World σ) :
    Except Panic (Option SlackAttachment × Option GoError) × World σ :=
  let title := go "Setting: " ++ s.title
  let currentValueMessage := go "Disabled"
  let actions : List PostAction := []
  if disabled then
    let text := s.description ++ go "\n" ++ currentValueMessage
    (Except.ok (some { Title := title, Text := text, Actions := actions }, none), w)
  else
    let r := Get s userID w
    match r.1.2 with
    | some err => (Except.ok (none, some err), r.2)
    | none =>
      let rest : Except Panic (Option SlackAttachment × Option GoError) := do
        -- dsum := dsumRaw.(*store.DailySummaryUserSettings)
        let dsum ← match r.1.1 with
          | Value.dailySummary p => Except.ok p
          | _ => Except.error Panic.interfaceConversion
        -- (currentH, currentM, currentAPM, fullTime, currentEnable, currentTextValue)
        let cur ← match dsum with
          | none =>
            Except.ok (go "8", go "00", go "AM", go "8:00AM", false, go "Not set.")
          | some d => do
            let fullTime := d.PostTime
            let currentEnable := d.Enable
            let hma ← decodePostTime fullTime
            let currentH := hma.1
            let currentM := hma.2.1
            let currentAPM := hma.2.2
            let enableText := if currentEnable then go "Enabled" else go "Disabled"
            let currentTextValue :=
              d.PostTime ++ go " (" ++ d.Timezone ++ go ") (" ++ enableText ++ go ")"
            Except.ok (currentH, currentM, currentAPM, fullTime, currentEnable, currentTextValue)
        let currentH := cur.1
        let currentM := cur.2.1
        let currentAPM := cur.2.2.1
        let fullTime := cur.2.2.2.1
        let currentEnable := cur.2.2.2.2.1
        let currentTextValue := cur.2.2.2.2.2
        let tzr := s.getTimezone userID
        match tzr.2 with
        | some err =>
          Except.ok (none, some (GoError.errorsNew
            (go "could not load the timezone from Microsoft, err= " ++ err.Error)))
        | none =>
          let timezone := tzr.1
          let fullTime := fullTime ++ go " " ++ timezone
          let currentValueMessage := go "Current value: " ++ currentTextValue
          let actionOptionsH : PostAction :=
            { Name := go "H:"
              Integration :=
                { URL := settingHandler
                  Context := [(ContextKey.ContextIDKey, Value.string s.id)] }
              Type_ := go "select"
              Options := makeHOptions s currentM currentAPM timezone
              DefaultOption := fullTime }
          let actionOptionsM : PostAction :=
            { Name := go "M:"
              Integration :=
                { URL := settingHandler
                  Context := [(ContextKey.ContextIDKey, Value.string s.id)] }
              Type_ := go "select"
              Options := makeMOptions s currentH currentAPM timezone
              DefaultOption := fullTime }
          let optionsAPM ← makeAPMOptions s currentH currentM timezone
          let actionOptionsAPM : PostAction :=
            { Name := go "AM/PM:"
              Integration :=
                { URL := settingHandler
                  Context := [(ContextKey.ContextIDKey, Value.string s.id)] }
              Type_ := go "select"
              Options := optionsAPM
              DefaultOption := fullTime }
          let actions := [actionOptionsH, actionOptionsM, actionOptionsAPM]
          let buttonText := if currentEnable then go "Disable" else go "Enable"
          let enable := if currentEnable then go "false" else go "true"
          let actionToggle : PostAction :=
            { Name := buttonText
              Integration :=
                { URL := settingHandler
                  Context :=
                    [(ContextKey.ContextIDKey, Value.string s.id),
                     (ContextKey.ContextButtonValueKey,
                      Value.string (enable ++ go " " ++ timezone))] }
              Type_ := go ""
              Options := []
              DefaultOption := go "" }
          let actions := actions ++ [actionToggle]
          let text := s.description ++ go "\n" ++ currentValueMessage
          Except.ok (some { Title := title, Text := text, Actions := actions }, none)
      (rest, r.2)

/-! ## The post times of the time picker -/

/-- The valid post times `(h, mm, apm)` of the time picker: the minute is one of
"00", "15", "30", "45", and the hour is the decimal of 0..11 with "AM" or of
1..12 with "PM". -/
def ValidPostTime (h mm apm : GoString) : Prop :=
  mm ∈ [go "00", go "15", go "30", go "45"]
    ∧ ((apm = go "AM" ∧ h ∈ (List.range 12).map sprintfD)
      ∨ (apm = go "PM" ∧ h ∈ (List.range' 1 12).map sprintfD))

instance (h mm apm : GoString) : Decidable (ValidPostTime h mm apm) := by
  unfold ValidPostTime
  infer_instance

/-- Modelled from the spec: the post times reachable by selections.  The store
that turns a selected option value `<p> <tz>` into the stored post time `p` is
not part of this file; a selection step takes an option that one of the three
generators offers for the current post time, and the next current post time is
the decoding of its post-time part `p`.  The first post time is the default
8:00AM of `GetSlackAttachments`. -/
inductive Reachable {σ : Type} (s : dailySummarySetting σ) :
    GoString → GoString → GoString → Prop where
  | default : Reachable s (go "8") (go "00") (go "AM")
  | selectH (h mm apm tz p h2 mm2 apm2 : GoString) (o : PostActionOptions) :
      Reachable s h mm apm → o ∈ makeHOptions s mm apm tz → o.Value = p ++ go " " ++ tz →
      decodePostTime p = Except.ok (h2, mm2, apm2) → Reachable s h2 mm2 apm2
  | selectM (h mm apm tz p h2 mm2 apm2 : GoString) (o : PostActionOptions) :
      Reachable s h mm apm → o ∈ makeMOptions s h apm tz → o.Value = p ++ go " " ++ tz →
      decodePostTime p = Except.ok (h2, mm2, apm2) → Reachable s h2 mm2 apm2
  | selectAPM (h mm apm tz p h2 mm2 apm2 : GoString) (o : PostActionOptions)
      (opts : List PostActionOptions) :
      Reachable s h mm apm → makeAPMOptions s h mm tz = Except.ok opts → o ∈ opts →
      o.Value = p ++ go " " ++ tz →
      decodePostTime p = Except.ok (h2, mm2, apm2) → Reachable s h2 mm2 apm2

/-! ## Stores used in the examples -/

/-- A store for the examples: every `GetSetting` answers `getResult`, every
`SetSetting` answers `setError`; the state counts the writes. -/
def fixedStore (getResult : Value × Option GoError) (setError : Option GoError) :
    SettingStore Nat :=
  { SetSetting := fun n _ _ _ => (n + 1, setError)
    GetSetting := fun _ _ _ => getResult }

/-- A timezone provider for the examples: always answers `result`. -/
def fixedTimezone (result : GoString × Option GoError) : GoString → GoString × Option GoError :=
  fun _ => result

/-! ## Auxiliary facts -/

theorem go_colon : go ":" = [58] := by decide

theorem optionsH_New {σ : Type} (id : GoString) (st : SettingStore σ)
    (tzf : GoString → GoString × Option GoError) :
    (NewDailySummarySetting id st tzf).optionsH =
      [go "0", go "1", go "2", go "3", go "4", go "5", go "6", go "7", go "8", go "9",
       go "10", go "11"] := by
  simp only [NewDailySummarySetting]; decide

theorem optionsM_New {σ : Type} (id : GoString) (st : SettingStore σ)
    (tzf : GoString → GoString × Option GoError) :
    (NewDailySummarySetting id st tzf).optionsM = [go "00", go "15", go "30", go "45"] := by
  simp only [NewDailySummarySetting]; decide

theorem optionsAPM_New {σ : Type} (id : GoString) (st : SettingStore σ)
    (tzf : GoString → GoString × Option GoError) :
    (NewDailySummarySetting id st tzf).optionsAPM = [go "AM", go "PM"] := rfl

theorem makeAPMOptions_New {σ : Type} (id : GoString) (st : SettingStore σ)
    (tzf : GoString → GoString × Option GoError) (h m tz : GoString) :
    makeAPMOptions (NewDailySummarySetting id st tzf) h m tz =
      Except.ok
        [ { Text := go "AM"
            Value := sprintfTime (if h = go "12" then go "0" else h) m (go "AM") tz },
          { Text := go "PM"
            Value := sprintfTime (if h = go "0" then go "12" else h) m (go "PM") tz } ] := by
  simp [makeAPMOptions, optionsAPM_New, index, bind, Except.bind, pure, Except.pure]

theorem makeHOptions_New {σ : Type} (id : GoString) (st : SettingStore σ)
    (tzf : GoString → GoString × Option GoError) (m apm tz : GoString) :
    makeHOptions (NewDailySummarySetting id st tzf) m apm tz =
      List.map (fun l => { Text := l, Value := sprintfTime l m apm tz })
        [if apm = go "PM" then go "12" else go "0",
         go "1", go "2", go "3", go "4", go "5", go "6", go "7", go "8", go "9",
         go "10", go "11"] := by
  rw [makeHOptions, optionsH_New]
  simp [makeHOptionsLoop]

theorem makeMOptions_New {σ : Type} (id : GoString) (st : SettingStore σ)
    (tzf : GoString → GoString × Option GoError) (h apm tz : GoString) :
    makeMOptions (NewDailySummarySetting id st tzf) h apm tz =
      List.map (fun l => { Text := l, Value := sprintfTime h l apm tz })
        [go "00", go "15", go "30", go "45"] := by
  rw [makeMOptions, optionsM_New]
  simp

theorem Get_of_GetSetting {σ : Type} (s : dailySummarySetting σ) (userID : GoString)
    (w : World σ) (p : Option DailySummaryUserSettings)
    (hget : s.store.GetSetting w.state userID s.id = (Value.dailySummary p, none)) :
    Get s userID w = ((Value.dailySummary p, none),
      { state := w.state, calls := w.calls ++ [StoreCall.GetSetting userID s.id] }) := by
  simp [Get, callGetSetting, hget]

theorem GetSetting_of_Get {σ : Type} (s : dailySummarySetting σ) (userID : GoString)
    (w : World σ) (p : Option DailySummaryUserSettings)
    (hget : (Get s userID w).1 = (Value.dailySummary p, none)) :
    s.store.GetSetting w.state userID s.id = (Value.dailySummary p, none) := by
  simp only [Get, callGetSetting] at hget
  rcases hg : s.store.GetSetting w.state userID s.id with ⟨v, e⟩
  rw [hg] at hget
  cases e with
  | some err => simp at hget
  | none =>
    cases v <;> simp at hget
    simp [hget]

theorem title_New {σ : Type} (id : GoString) (st : SettingStore σ)
    (tzf : GoString → GoString × Option GoError) :
    go "Setting: " ++ (NewDailySummarySetting id st tzf).title = go "Setting: Daily Summary" := by
  simp only [NewDailySummarySetting]; decide

theorem stringsSplit_no_sep (sep : UInt8) (x : GoString) (hx : ∀ b ∈ x, b ≠ sep) :
    stringsSplit sep x = [x] := by
  induction x with
  | nil => simp [stringsSplit]
  | cons c cs ih =>
    have hc : c ≠ sep := hx c (by simp)
    have ih2 := ih (fun b hb => hx b (by simp [hb]))
    simp [stringsSplit, hc, ih2]

theorem stringsSplit_append_sep (sep : UInt8) (x rest : GoString) (hx : ∀ b ∈ x, b ≠ sep) :
    stringsSplit sep (x ++ sep :: rest) = x :: stringsSplit sep rest := by
  induction x with
  | nil => simp [stringsSplit]
  | cons c cs ih =>
    have hc : c ≠ sep := hx c (by simp)
    have ih2 := ih (fun b hb => hx b (by simp [hb]))
    simp [stringsSplit, hc, ih2]

theorem decodePostTime_wellFormed (H MM APM : GoString) (hH : ∀ b ∈ H, b ≠ 58)
    (hMM : MM.length = 2) (hMM2 : ∀ b ∈ MM, b ≠ 58) (hAPM : ∀ b ∈ APM, b ≠ 58) :
    decodePostTime (H ++ go ":" ++ MM ++ APM) = Except.ok (H, MM, APM) := by
  have hs : stringsSplit 58 (H ++ go ":" ++ MM ++ APM) = [H, MM ++ APM] := by
    have : H ++ go ":" ++ MM ++ APM = H ++ 58 :: (MM ++ APM) := by
      simp [go_colon]
    rw [this, stringsSplit_append_sep 58 H _ hH, stringsSplit_no_sep]
    intro b hb
    rcases List.mem_append.1 hb with h | h
    · exact hMM2 b h
    · exact hAPM b h
  simp only [decodePostTime, hs]
  simp [index, sliceTo, sliceFrom, len, hMM, bind, Except.bind]

/-- The attachment of a successful render of a stored record, spelled out. -/
theorem GetSlackAttachments_stored {σ : Type} (id : GoString) (st : SettingStore σ)
    (tzf : GoString → GoString × Option GoError) (userID settingHandler tz : GoString)
    (w : World σ) (d : DailySummaryUserSettings) (H M A : GoString)
    (hst : st.GetSetting w.state userID id = (Value.dailySummary (some d), none))
    (hdec : decodePostTime d.PostTime = Except.ok (H, M, A))
    (htz : tzf userID = (tz, none)) :
    (GetSlackAttachments (NewDailySummarySetting id st tzf) userID settingHandler
        false w).1 =
      Except.ok
        (some
          { Title := go "Setting: Daily Summary"
            Text := (NewDailySummarySetting id st tzf).description
              ++ go "\nCurrent value: " ++ d.PostTime ++ go " (" ++ d.Timezone ++ go ") ("
              ++ (if d.Enable then go "Enabled" else go "Disabled") ++ go ")"
            Actions :=
              [ { Name := go "H:"
                  Integration :=
                    { URL := settingHandler
                      Context := [(ContextKey.ContextIDKey, Value.string id)] }
                  Type_ := go "select"
                  Options := makeHOptions (NewDailySummarySetting id st tzf) M A tz
                  DefaultOption := d.PostTime ++ go " " ++ tz },
                { Name := go "M:"
                  Integration :=
                    { URL := settingHandler
                      Context := [(ContextKey.ContextIDKey, Value.string id)] }
                  Type_ := go "select"
                  Options := makeMOptions (NewDailySummarySetting id st tzf) H A tz
                  DefaultOption := d.PostTime ++ go " " ++ tz },
                { Name := go "AM/PM:"
                  Integration :=
                    { URL := settingHandler
                      Context := [(ContextKey.ContextIDKey, Value.string id)] }
                  Type_ := go "select"
                  Options :=
                    [ { Text := go "AM"
                        Value := sprintfTime (if H = go "12" then go "0" else H) M (go "AM") tz },
                      { Text := go "PM"
                        Value := sprintfTime (if H = go "0" then go "12" else H) M (go "PM") tz } ]
                  DefaultOption := d.PostTime ++ go " " ++ tz },
                { Name := if d.Enable then go "Disable" else go "Enable"
                  Integration :=
                    { URL := settingHandler
                      Context :=
                        [(ContextKey.ContextIDKey, Value.string id),
                         (ContextKey.ContextButtonValueKey,
                          Value.string ((if d.Enable then go "false" else go "true")
                            ++ go " " ++ tz))] }
                  Type_ := go ""
                  Options := []
                  DefaultOption := go "" } ] },
         none) := by
  have hg := Get_of_GetSetting (NewDailySummarySetting id st tzf) userID w (some d) hst
  have htz2 : (NewDailySummarySetting id st tzf).getTimezone userID = (tz, none) := htz
  have hid : (NewDailySummarySetting id st tzf).id = id := rfl
  have hnl : ∀ x : GoString, go "\n" ++ (go "Current value: " ++ x) = go "\nCurrent value: " ++ x :=
    fun _ => rfl
  simp only [GetSlackAttachments, hg, htz2, title_New, hid]
  simp [bind, Except.bind, makeAPMOptions_New, hdec, hnl]

theorem sprintfTime_suffix (a b c d : GoString) : (go " " ++ d) <:+ sprintfTime a b c d :=
  ⟨a ++ go ":" ++ b ++ c, by simp [sprintfTime]⟩

/-! ## The option generators -/

/-- C1: `makeAPMOptions(h, m, tz)` returns exactly two options, AM then PM, with
labels "AM" and "PM"; the AM value is `<h1>:<m>AM <tz>` with `h1 = "0"` when
`h = "12"` and `h1 = h` otherwise; the PM value is `<h2>:<m>PM <tz>` with
`h2 = "12"` when `h = "0"` and `h2 = h` otherwise.  In particular every `h` other
than "0" and "12" is encoded unchanged in both options, and for `h = "12"` the AM
value is `0:<m>AM <tz>`. -/
theorem makeAPMOptions_spec {σ : Type} (id : GoString) (st : SettingStore σ)
    (tzf : GoString → GoString × Option GoError) (h m tz : GoString) :
    makeAPMOptions (NewDailySummarySetting id st tzf) h m tz =
        Except.ok
          [ { Text := go "AM"
              Value := (if h = go "12" then go "0" else h) ++ go ":" ++ m ++ go "AM"
                ++ go " " ++ tz },
            { Text := go "PM"
              Value := (if h = go "0" then go "12" else h) ++ go ":" ++ m ++ go "PM"
                ++ go " " ++ tz } ]
      ∧ (h ≠ go "0" → h ≠ go "12" →
          makeAPMOptions (NewDailySummarySetting id st tzf) h m tz =
            Except.ok
              [ { Text := go "AM", Value := h ++ go ":" ++ m ++ go "AM" ++ go " " ++ tz },
                { Text := go "PM", Value := h ++ go ":" ++ m ++ go "PM" ++ go " " ++ tz } ])
      ∧ makeAPMOptions (NewDailySummarySetting id st tzf) (go "12") m tz =
          Except.ok
            [ { Text := go "AM", Value := go "0" ++ go ":" ++ m ++ go "AM" ++ go " " ++ tz },
              { Text := go "PM", Value := go "12" ++ go ":" ++ m ++ go "PM" ++ go " " ++ tz } ] := by
  refine ⟨?_, ?_, ?_⟩
  · simp [makeAPMOptions_New, sprintfTime]
  · intro h0 h12
    simp [makeAPMOptions_New, sprintfTime, h0, h12]
  · have h12 : go "12" ≠ go "0" := by decide
    simp [makeAPMOptions_New, sprintfTime, h12]

/-- C1, at hour "5", minute "30", timezone "UTC". -/
theorem makeAPMOptions_spec_witness :
    go "5" ≠ go "0" ∧ go "5" ≠ go "12" ∧
    makeAPMOptions (NewDailySummarySetting (go "id")
        (SettingStore.mk (fun (_ : Unit) _ _ _ => ((), none)) (fun _ _ _ => (Value.nil, none)))
        (fun _ => (go "UTC", none))) (go "5") (go "30") (go "UTC") =
      Except.ok
        [ { Text := go "AM", Value := go "5" ++ go ":" ++ go "30" ++ go "AM" ++ go " " ++ go "UTC" },
          { Text := go "PM", Value := go "5" ++ go ":" ++ go "30" ++ go "PM" ++ go " " ++ go "UTC" } ] :=
  ⟨by decide, by decide,
   (makeAPMOptions_spec (go "id") _ _ (go "5") (go "30") (go "UTC")).2.1 (by decide) (by decide)⟩

/-- C2: on a setting built by `NewDailySummarySetting`, `makeHOptions(m, apm, tz)`
returns exactly 12 options; the label at index `i` is the unpadded decimal of `i`,
except that the label at index 0 is "12" when `apm = "PM"`; and every value is
`<label>:<m><apm> <tz>`. -/
theorem makeHOptions_spec {σ : Type} (id : GoString) (st : SettingStore σ)
    (tzf : GoString → GoString × Option GoError) (m apm tz : GoString) :
    (makeHOptions (NewDailySummarySetting id st tzf) m apm tz).length = 12
      ∧ (makeHOptions (NewDailySummarySetting id st tzf) m apm tz).map PostActionOptions.Text =
          [if apm = go "PM" then go "12" else go "0",
           go "1", go "2", go "3", go "4", go "5", go "6", go "7", go "8", go "9",
           go "10", go "11"]
      ∧ (∀ i, i < 12 →
          (makeHOptions (NewDailySummarySetting id st tzf) m apm tz).get? i =
            some
              { Text := if i = 0 ∧ apm = go "PM" then go "12" else go (Nat.repr i)
                Value := (if i = 0 ∧ apm = go "PM" then go "12" else go (Nat.repr i))
                  ++ go ":" ++ m ++ apm ++ go " " ++ tz }) := by
  rw [makeHOptions_New]
  refine ⟨by simp, by simp, ?_⟩
  intro i hi
  have h0 : go (Nat.repr 0) = go "0" := by decide
  by_cases hp : apm = go "PM" <;> interval_cases i <;> simp [sprintfTime, hp, h0] <;> decide

/-- C2, at index 0 with meridiem "PM". -/
theorem makeHOptions_spec_witness :
    (makeHOptions (NewDailySummarySetting (go "id")
        (SettingStore.mk (fun (_ : Unit) _ _ _ => ((), none)) (fun _ _ _ => (Value.nil, none)))
        (fun _ => (go "UTC", none))) (go "30") (go "PM") (go "UTC")).get? 0 =
      some
        { Text := if 0 = 0 ∧ go "PM" = go "PM" then go "12" else go (Nat.repr 0)
          Value := (if 0 = 0 ∧ go "PM" = go "PM" then go "12" else go (Nat.repr 0))
            ++ go ":" ++ go "30" ++ go "PM" ++ go " " ++ go "UTC" } :=
  (makeHOptions_spec (go "id") _ _ (go "30") (go "PM") (go "UTC")).2.2 0 (by decide)

/-- C3: on a setting built by `NewDailySummarySetting`, `makeMOptions(h, apm, tz)`
returns exactly four options, in order, with labels "00", "15", "30", "45"; the
option with label `mm` has value `<h>:<mm><apm> <tz>`. -/
theorem makeMOptions_spec {σ : Type} (id : GoString) (st : SettingStore σ)
    (tzf : GoString → GoString × Option GoError) (h apm tz : GoString) :
    makeMOptions (NewDailySummarySetting id st tzf) h apm tz =
      [ { Text := go "00", Value := h ++ go ":" ++ go "00" ++ apm ++ go " " ++ tz },
        { Text := go "15", Value := h ++ go ":" ++ go "15" ++ apm ++ go " " ++ tz },
        { Text := go "30", Value := h ++ go ":" ++ go "30" ++ apm ++ go " " ++ tz },
        { Text := go "45", Value := h ++ go ":" ++ go "45" ++ apm ++ go " " ++ tz } ] := by
  rw [makeMOptions_New]
  simp [sprintfTime]

/-! ## The codec -/

/-- C4: round trip of the codec.  For every hour `h` in 0..11 (unpadded decimal),
minute `mm` in {"00","15","30","45"} and meridiem `apm` in {"AM","PM"}, the
post-time string `<h>:<mm><apm>` (what the option generators write before the
space and the timezone) is decoded by the steps of `GetSlackAttachments` back to
exactly `(h, mm, apm)`. -/
theorem decodePostTime_roundtrip (h : Nat) (mm apm tz : GoString) (hh : h < 12)
    (hmm : mm ∈ [go "00", go "15", go "30", go "45"]) (hapm : apm ∈ [go "AM", go "PM"]) :
    sprintfTime (sprintfD h) mm apm tz = (sprintfD h ++ go ":" ++ mm ++ apm) ++ go " " ++ tz
      ∧ decodePostTime (sprintfD h ++ go ":" ++ mm ++ apm) = Except.ok (sprintfD h, mm, apm) := by
  refine ⟨by simp [sprintfTime], ?_⟩
  simp only [List.mem_cons, List.mem_singleton, List.not_mem_nil, or_false] at hmm hapm
  interval_cases h <;> rcases hmm with rfl | rfl | rfl | rfl <;> rcases hapm with rfl | rfl <;>
    decide

/-- C4, at 5:30PM. -/
theorem decodePostTime_roundtrip_witness :
    decodePostTime (sprintfD 5 ++ go ":" ++ go "30" ++ go "PM") =
      Except.ok (sprintfD 5, go "30", go "PM") :=
  (decodePostTime_roundtrip 5 (go "30") (go "PM") (go "UTC") (by decide) (by decide)
    (by decide)).2

/-! ## Rendering -/

/-- C5: for a stored record `{postTime, timezone, enabled}` whose post time is well
formed (`<H>:<MM><AM|PM>`: an hour part without ":", two minute bytes, "AM" or
"PM") and a timezone `live` returned by the provider, `GetSlackAttachments` with
`disabled = false` succeeds; (a) the text is the description followed by
"\nCurrent value: <postTime> (<stored timezone>) (Enabled|Disabled)", with the
stored timezone; (b) the value of every option of the hour, minute and AM/PM
selectors ends with " <live>" and the button value of the toggle is
"<true|false> <live>", with the freshly fetched timezone. -/
theorem GetSlackAttachments_stored_and_live {σ : Type} (id : GoString) (st : SettingStore σ)
    (tzf : GoString → GoString × Option GoError) (userID settingHandler : GoString)
    (w : World σ) (H MM APM storedTz live : GoString) (enabled : Bool)
    (hH : ∀ b ∈ H, b ≠ 58) (hMM : MM.length = 2) (hMM2 : ∀ b ∈ MM, b ≠ 58)
    (hAPM : APM = go "AM" ∨ APM = go "PM")
    (hget : st.GetSetting w.state userID id =
      (Value.dailySummary
        (some { PostTime := H ++ go ":" ++ MM ++ APM, Timezone := storedTz, Enable := enabled }),
       none))
    (htz : tzf userID = (live, none)) :
    ∃ aH aM aAPM toggle : PostAction,
      (GetSlackAttachments (NewDailySummarySetting id st tzf) userID settingHandler
          false w).1 =
        Except.ok
          (some
            { Title := go "Setting: Daily Summary"
              Text := (NewDailySummarySetting id st tzf).description
                ++ go "\nCurrent value: " ++ (H ++ go ":" ++ MM ++ APM) ++ go " (" ++ storedTz
                ++ go ") (" ++ (if enabled then go "Enabled" else go "Disabled") ++ go ")"
              Actions := [aH, aM, aAPM, toggle] },
           none)
      ∧ aH.Name = go "H:" ∧ aH.Options.length = 12
      ∧ aM.Name = go "M:" ∧ aM.Options.length = 4
      ∧ aAPM.Name = go "AM/PM:" ∧ aAPM.Options.length = 2
      ∧ (∀ o ∈ aH.Options ++ aM.Options ++ aAPM.Options, (go " " ++ live) <:+ o.Value)
      ∧ contextGet toggle.Integration.Context ContextKey.ContextButtonValueKey =
          some (Value.string ((if enabled then go "false" else go "true") ++ go " " ++ live)) := by
  have hA : ∀ b ∈ APM, b ≠ 58 := by
    rcases hAPM with rfl | rfl <;> decide
  have hdec := decodePostTime_wellFormed H MM APM hH hMM hMM2 hA
  have hmain := GetSlackAttachments_stored id st tzf userID settingHandler live w
    { PostTime := H ++ go ":" ++ MM ++ APM, Timezone := storedTz, Enable := enabled }
    H MM APM hget hdec htz
  refine ⟨_, _, _, _, hmain, rfl, ?_, rfl, ?_, rfl, rfl, ?_, ?_⟩
  · simp [makeHOptions_New]
  · simp [makeMOptions_New]
  · intro o ho
    simp only [makeHOptions_New, makeMOptions_New, List.mem_append, List.mem_map,
      List.mem_cons, List.mem_singleton, List.not_mem_nil, or_false] at ho
    rcases ho with (⟨l, _, rfl⟩ | ⟨l, _, rfl⟩) | rfl | rfl <;> exact sprintfTime_suffix _ _ _ _
  · simp [contextGet]

/-- C5, for the stored record {"5:30PM", "America/New_York", true} and the live
timezone "Europe/London". -/
theorem GetSlackAttachments_stored_and_live_witness :
    ∃ aH aM aAPM toggle : PostAction,
      (GetSlackAttachments
          (NewDailySummarySetting (go "summary")
            (fixedStore
              (Value.dailySummary
                (some { PostTime := go "5:30PM", Timezone := go "America/New_York",
                        Enable := true }), none) none)
            (fixedTimezone (go "Europe/London", none)))
          (go "user") (go "/settings") false { state := 0, calls := [] }).1 =
        Except.ok
          (some
            { Title := go "Setting: Daily Summary"
              Text := go "When do you want to receive the daily summary?\n If you update this setting, it will automatically update to your the timezone currently set on your calendar."
                ++ go "\nCurrent value: " ++ go "5:30PM" ++ go " (" ++ go "America/New_York"
                ++ go ") (" ++ go "Enabled" ++ go ")"
              Actions := [aH, aM, aAPM, toggle] },
           none)
      ∧ aH.Name = go "H:" ∧ aH.Options.length = 12
      ∧ aM.Name = go "M:" ∧ aM.Options.length = 4
      ∧ aAPM.Name = go "AM/PM:" ∧ aAPM.Options.length = 2
      ∧ (∀ o ∈ aH.Options ++ aM.Options ++ aAPM.Options,
          (go " " ++ go "Europe/London") <:+ o.Value)
      ∧ contextGet toggle.Integration.Context ContextKey.ContextButtonValueKey =
          some (Value.string (go "false" ++ go " " ++ go "Europe/London")) :=
  GetSlackAttachments_stored_and_live (go "summary") _ _ (go "user") (go "/settings")
    { state := 0, calls := [] } (go "5") (go "30") (go "PM") (go "America/New_York")
    (go "Europe/London") true (by decide) (by decide) (by decide) (by decide) rfl rfl

/-- C6: with no prior record (`Get` yields the not-set record) and the timezone
provider returning `tz`, `GetSlackAttachments` with `disabled = false` succeeds;
every selector has default option `8:00AM <tz>`; the hour selector is built for
minute "00" and meridiem "AM", the minute and AM/PM selectors for hour "8"; the
toggle is named "Enable" with button value `true <tz>`; the text is the
description followed by "\nCurrent value: Not set.". -/
theorem GetSlackAttachments_no_record {σ : Type} (id : GoString) (st : SettingStore σ)
    (tzf : GoString → GoString × Option GoError) (userID settingHandler tz : GoString)
    (w : World σ)
    (hget : (Get (NewDailySummarySetting id st tzf) userID w).1 =
      (Value.dailySummary none, none))
    (htz : tzf userID = (tz, none)) :
    makeAPMOptions (NewDailySummarySetting id st tzf) (go "8") (go "00") tz =
        Except.ok
          [ { Text := go "AM", Value := go "8:00AM " ++ tz },
            { Text := go "PM", Value := go "8:00PM " ++ tz } ]
      ∧ (GetSlackAttachments (NewDailySummarySetting id st tzf) userID settingHandler
          false w).1 =
        Except.ok
          (some
            { Title := go "Setting: Daily Summary"
              Text := (NewDailySummarySetting id st tzf).description
                ++ go "\nCurrent value: Not set."
              Actions :=
                [ { Name := go "H:"
                    Integration :=
                      { URL := settingHandler
                        Context := [(ContextKey.ContextIDKey, Value.string id)] }
                    Type_ := go "select"
                    Options :=
                      makeHOptions (NewDailySummarySetting id st tzf) (go "00") (go "AM") tz
                    DefaultOption := go "8:00AM " ++ tz },
                  { Name := go "M:"
                    Integration :=
                      { URL := settingHandler
                        Context := [(ContextKey.ContextIDKey, Value.string id)] }
                    Type_ := go "select"
                    Options :=
                      makeMOptions (NewDailySummarySetting id st tzf) (go "8") (go "AM") tz
                    DefaultOption := go "8:00AM " ++ tz },
                  { Name := go "AM/PM:"
                    Integration :=
                      { URL := settingHandler
                        Context := [(ContextKey.ContextIDKey, Value.string id)] }
                    Type_ := go "select"
                    Options :=
                      [ { Text := go "AM", Value := go "8:00AM " ++ tz },
                        { Text := go "PM", Value := go "8:00PM " ++ tz } ]
                    DefaultOption := go "8:00AM " ++ tz },
                  { Name := go "Enable"
                    Integration :=
                      { URL := settingHandler
                        Context :=
                          [(ContextKey.ContextIDKey, Value.string id),
                           (ContextKey.ContextButtonValueKey, Value.string (go "true " ++ tz))] }
                    Type_ := go ""
                    Options := []
                    DefaultOption := go "" } ] },
           none) := by
  have hst := GetSetting_of_Get _ userID w none hget
  have hg := Get_of_GetSetting (NewDailySummarySetting id st tzf) userID w none hst
  have htz2 : (NewDailySummarySetting id st tzf).getTimezone userID = (tz, none) := htz
  have hid : (NewDailySummarySetting id st tzf).id = id := rfl
  have h8 : go "8" ≠ go "12" := by decide
  have h8b : go "8" ≠ go "0" := by decide
  have e1 : ∀ x : GoString, go "8" ++ (go ":" ++ (go "00" ++ (go "AM" ++ (go " " ++ x))))
      = go "8:00AM " ++ x := fun _ => rfl
  have e2 : ∀ x : GoString, go "8" ++ (go ":" ++ (go "00" ++ (go "PM" ++ (go " " ++ x))))
      = go "8:00PM " ++ x := fun _ => rfl
  have e3 : ∀ x : GoString, go "8:00AM" ++ (go " " ++ x) = go "8:00AM " ++ x := fun _ => rfl
  have e4 : ∀ x : GoString, go "true" ++ (go " " ++ x) = go "true " ++ x := fun _ => rfl
  have e5 : ∀ x : GoString, x ++ (go "\n" ++ (go "Current value: " ++ go "Not set."))
      = x ++ go "\nCurrent value: Not set." := fun _ => rfl
  refine ⟨?_, ?_⟩
  · simp [makeAPMOptions_New, sprintfTime, h8, h8b, e1, e2]
  · simp only [GetSlackAttachments, hg, htz2, title_New, hid]
    simp [bind, Except.bind, makeAPMOptions_New, sprintfTime, h8, h8b, e1, e2, e3, e4, e5]

/-- C6, for a store without a record and the timezone "Europe/London": the call
succeeds, the three selectors carry the default "8:00AM Europe/London" and the
toggle is named "Enable". -/
theorem GetSlackAttachments_no_record_witness :
    ∃ sa : SlackAttachment,
      (GetSlackAttachments
          (NewDailySummarySetting (go "summary")
            (fixedStore (Value.dailySummary none, none) none)
            (fixedTimezone (go "Europe/London", none)))
          (go "user") (go "/settings") false { state := 0, calls := [] }).1 =
        Except.ok (some sa, none)
      ∧ sa.Actions.map PostAction.Name = [go "H:", go "M:", go "AM/PM:", go "Enable"]
      ∧ sa.Actions.map PostAction.DefaultOption =
          [go "8:00AM Europe/London", go "8:00AM Europe/London", go "8:00AM Europe/London",
           go ""] :=
  ⟨_, (GetSlackAttachments_no_record (go "summary")
        (fixedStore (Value.dailySummary none, none) none)
        (fixedTimezone (go "Europe/London", none)) (go "user") (go "/settings")
        (go "Europe/London") { state := 0, calls := [] } rfl rfl).2,
    rfl, by decide⟩

/-- C7: with `disabled = true`, whatever the user, the endpoint, the store (its
`GetSetting` may fail or hold a value of any type) and the timezone provider (it
may fail), `GetSlackAttachments` returns no error and an attachment with title
"Setting: Daily Summary", text the description followed by "\nDisabled", and an
empty list of actions; the store is not consulted. -/
theorem GetSlackAttachments_disabled {σ : Type} (id : GoString) (st : SettingStore σ)
    (tzf : GoString → GoString × Option GoError) (userID settingHandler : GoString)
    (w : World σ) :
    GetSlackAttachments (NewDailySummarySetting id st tzf) userID settingHandler true w =
      (Except.ok
        (some
          { Title := go "Setting: Daily Summary"
            Text := (NewDailySummarySetting id st tzf).description ++ go "\nDisabled"
            Actions := [] },
         none),
       w) := by
  have hnl : ∀ x : GoString, x ++ (go "\n" ++ go "Disabled") = x ++ go "\nDisabled" :=
    fun _ => rfl
  simp only [GetSlackAttachments, title_New]
  simp [hnl]

/-- C8 fails as stated: for the stored record {"830AM", "America/New_York", true}
the selection loads (`Get` returns the record without error) and the timezone
provider fails, yet `GetSlackAttachments` with `disabled = false` does not return
the wrapped error: the index `splitted[1]` is out of range and the call ends in a
panic before the provider is asked. -/
theorem GetSlackAttachments_timezone_failure_after_panic :
    (Get
        (NewDailySummarySetting (go "summary")
          (fixedStore
            (Value.dailySummary
              (some { PostTime := go "830AM", Timezone := go "America/New_York",
                      Enable := true }), none) none)
          (fixedTimezone (go "UTC", some (GoError.foreign 1 (go "graph unavailable")))))
        (go "user") { state := 0, calls := [] }).1 =
      (Value.dailySummary
        (some { PostTime := go "830AM", Timezone := go "America/New_York", Enable := true }),
       none)
    ∧ fixedTimezone (go "UTC", some (GoError.foreign 1 (go "graph unavailable"))) (go "user") =
      (go "UTC", some (GoError.foreign 1 (go "graph unavailable")))
    ∧ (GetSlackAttachments
        (NewDailySummarySetting (go "summary")
          (fixedStore
            (Value.dailySummary
              (some { PostTime := go "830AM", Timezone := go "America/New_York",
                      Enable := true }), none) none)
          (fixedTimezone (go "UTC", some (GoError.foreign 1 (go "graph unavailable")))))
        (go "user") (go "/settings") false { state := 0, calls := [] }).1 =
      Except.error Panic.indexOutOfRange
    ∧ (GetSlackAttachments
        (NewDailySummarySetting (go "summary")
          (fixedStore
            (Value.dailySummary
              (some { PostTime := go "830AM", Timezone := go "America/New_York",
                      Enable := true }), none) none)
          (fixedTimezone (go "UTC", some (GoError.foreign 1 (go "graph unavailable")))))
        (go "user") (go "/settings") false { state := 0, calls := [] }).1 ≠
      Except.ok
        (none,
         some (GoError.errorsNew
           (go "could not load the timezone from Microsoft, err= "
             ++ (GoError.foreign 1 (go "graph unavailable")).Error))) := by
  refine ⟨?_, ?_, ?_, ?_⟩ <;> decide

/-- C8, amended: when the stored selection loads (`Get` returns a record or the
not-set record without error) and the post time of a record, if there is one, is
split at ":" into hour, minute and meridiem without an index or a slice going
out of range, and the timezone provider fails with error `e`, then
`GetSlackAttachments` with `disabled = false` returns no attachment and the error
"could not load the timezone from Microsoft, err= " followed by the message of
`e`; the string the provider returned next to the error, the stored timezone and
any default are not used. -/
theorem GetSlackAttachments_timezone_failure {σ : Type} (id : GoString) (st : SettingStore σ)
    (tzf : GoString → GoString × Option GoError) (userID settingHandler : GoString)
    (w : World σ) (p : Option DailySummaryUserSettings) (x : GoString) (e : GoError)
    (hget : (Get (NewDailySummarySetting id st tzf) userID w).1 = (Value.dailySummary p, none))
    (hdec : ∀ d, p = some d → ∃ r, decodePostTime d.PostTime = Except.ok r)
    (htz : tzf userID = (x, some e)) :
    (GetSlackAttachments (NewDailySummarySetting id st tzf) userID settingHandler
        false w).1 =
      Except.ok
        (none,
         some (GoError.errorsNew
           (go "could not load the timezone from Microsoft, err= " ++ e.Error))) := by
  have hst := GetSetting_of_Get _ userID w p hget
  have hg := Get_of_GetSetting (NewDailySummarySetting id st tzf) userID w p hst
  have htz2 : (NewDailySummarySetting id st tzf).getTimezone userID = (x, some e) := htz
  cases p with
  | none =>
    simp only [GetSlackAttachments, hg, htz2]
    simp [bind, Except.bind]
  | some d =>
    obtain ⟨r, hr⟩ := hdec d rfl
    simp only [GetSlackAttachments, hg, htz2]
    simp [bind, Except.bind, hr]

/-- C8 amended, for the stored record {"5:30PM", "America/New_York", true} and a provider
that fails with "graph unavailable" while also returning the string "UTC". -/
theorem GetSlackAttachments_timezone_failure_witness :
    (GetSlackAttachments
        (NewDailySummarySetting (go "summary")
          (fixedStore
            (Value.dailySummary
              (some { PostTime := go "5:30PM", Timezone := go "America/New_York",
                      Enable := true }), none) none)
          (fixedTimezone (go "UTC", some (GoError.foreign 1 (go "graph unavailable")))))
        (go "user") (go "/settings") false { state := 0, calls := [] }).1 =
      Except.ok
        (none,
         some (GoError.errorsNew
           (go "could not load the timezone from Microsoft, err= "
             ++ (GoError.foreign 1 (go "graph unavailable")).Error))) :=
  GetSlackAttachments_timezone_failure (go "summary") _ _ (go "user") (go "/settings")
    { state := 0, calls := [] }
    (some { PostTime := go "5:30PM", Timezone := go "America/New_York", Enable := true })
    (go "UTC") (GoError.foreign 1 (go "graph unavailable")) rfl
    (fun d hd => ⟨(go "5", go "30", go "PM"), by cases hd; decide⟩) rfl

/-! ## Set -/

/-- C9: for every value that is not a string, `Set` fails with the error "trying
to set Daily Summary Setting without a string value" and the store's
`SetSetting` is not called: the store state and the call log are unchanged. -/
theorem Set_non_string {σ : Type} (s : dailySummarySetting σ) (userID : GoString)
    (value : Value) (w : World σ) (hv : ∀ v, value ≠ Value.string v) :
    Set s userID value w =
      (some (GoError.errorsNew
        (go "trying to set Daily Summary Setting without a string value")), w) := by
  cases value with
  | string v => exact absurd rfl (hv v)
  | _ => rfl

/-- C9, for the boolean value `true`. -/
theorem Set_non_string_witness :
    Set (NewDailySummarySetting (go "summary") (fixedStore (Value.dailySummary none, none) none)
        (fixedTimezone (go "UTC", none))) (go "user") (Value.bool true)
        { state := 0, calls := [] } =
      (some (GoError.errorsNew
        (go "trying to set Daily Summary Setting without a string value")),
       { state := 0, calls := [] }) :=
  Set_non_string _ (go "user") (Value.bool true) { state := 0, calls := [] }
    (fun _ h => Value.noConfusion h)

/-- C10: for every string value, `Set` calls the store's `SetSetting` exactly once,
with the user, the id of the daily-summary setting and the value unchanged, and
returns what the store returned: `nil` when the store succeeds and the store's
own error, unchanged, when the store fails. -/
theorem Set_string {σ : Type} (id : GoString) (st : SettingStore σ)
    (tzf : GoString → GoString × Option GoError) (userID v : GoString) (w : World σ) :
    Set (NewDailySummarySetting id st tzf) userID (Value.string v) w =
        ((st.SetSetting w.state userID id (Value.string v)).2,
         { state := (st.SetSetting w.state userID id (Value.string v)).1
           calls := w.calls ++ [StoreCall.SetSetting userID id (Value.string v)] })
      ∧ ((st.SetSetting w.state userID id (Value.string v)).2 = none →
          (Set (NewDailySummarySetting id st tzf) userID (Value.string v) w).1 = none)
      ∧ (∀ e, (st.SetSetting w.state userID id (Value.string v)).2 = some e →
          (Set (NewDailySummarySetting id st tzf) userID (Value.string v) w).1 = some e) := by
  have hmain : Set (NewDailySummarySetting id st tzf) userID (Value.string v) w =
        ((st.SetSetting w.state userID id (Value.string v)).2,
         { state := (st.SetSetting w.state userID id (Value.string v)).1
           calls := w.calls ++ [StoreCall.SetSetting userID id (Value.string v)] }) := by
    simp only [Set, callSetSetting]
    have hid : (NewDailySummarySetting id st tzf).id = id := rfl
    have hstore : (NewDailySummarySetting id st tzf).store = st := rfl
    rw [hid, hstore]
    cases (st.SetSetting w.state userID id (Value.string v)).2 <;> rfl
  refine ⟨hmain, ?_, ?_⟩
  · intro h
    rw [hmain]
    exact h
  · intro e h
    rw [hmain]
    exact h

/-- C10, for a store whose `SetSetting` fails with "database unavailable". -/
theorem Set_string_witness :
    (Set (NewDailySummarySetting (go "summary")
        (fixedStore (Value.dailySummary none, none)
          (some (GoError.foreign 7 (go "database unavailable"))))
        (fixedTimezone (go "UTC", none))) (go "user") (Value.string (go "5:30PM UTC"))
        { state := 0, calls := [] }).1 =
      some (GoError.foreign 7 (go "database unavailable")) :=
  (Set_string (go "summary")
    (fixedStore (Value.dailySummary none, none)
      (some (GoError.foreign 7 (go "database unavailable"))))
    (fixedTimezone (go "UTC", none)) (go "user") (go "5:30PM UTC")
    { state := 0, calls := [] }).2.2 _ rfl

/-! ## Get -/

/-- C11: `Get` returns the store's error unchanged when `GetSetting` fails;
otherwise it fails with "current value is not a Daily Summary Setting" if and
only if the stored value is not of the record type
`*store.DailySummaryUserSettings`; otherwise it returns the stored value
unchanged, which is the record or the not-configured (nil) record. -/
theorem Get_spec {σ : Type} (s : dailySummarySetting σ) (userID : GoString) (w : World σ)
    (v : Value) (e : Option GoError)
    (hget : s.store.GetSetting w.state userID s.id = (v, e)) :
    (∀ err, e = some err → (Get s userID w).1 = (Value.nil, some err))
      ∧ (e = none →
          ((Get s userID w).1 =
              (Value.nil,
               some (GoError.errorsNew (go "current value is not a Daily Summary Setting")))
            ↔ ∀ p, v ≠ Value.dailySummary p)
          ∧ ((Get s userID w).1.2 = none ↔ ∃ p, v = Value.dailySummary p)
          ∧ (∀ p, v = Value.dailySummary p → (Get s userID w).1 = (Value.dailySummary p, none))) := by
  refine ⟨?_, ?_⟩
  · intro err he
    subst he
    simp [Get, callGetSetting, hget]
  · intro he
    subst he
    cases v <;> simp [Get, callGetSetting, hget]

/-- C11, for a store that holds a string where the record is expected. -/
theorem Get_spec_witness :
    (Get (NewDailySummarySetting (go "summary") (fixedStore (Value.string (go "8:00AM"), none) none)
        (fixedTimezone (go "UTC", none))) (go "user") { state := 0, calls := [] }).1 =
      (Value.nil,
       some (GoError.errorsNew (go "current value is not a Daily Summary Setting"))) :=
  ((Get_spec (NewDailySummarySetting (go "summary")
        (fixedStore (Value.string (go "8:00AM"), none) none) (fixedTimezone (go "UTC", none)))
      (go "user") { state := 0, calls := [] } (Value.string (go "8:00AM")) none rfl).2 rfl).1.2
    (fun _ h => Value.noConfusion h)

/-! ## IsDisabled -/

/-- C12: `IsDisabled(v)` is true if and only if `v` is the string "false"; so
`IsDisabled("false")` is true, `IsDisabled("true")` is false, and `IsDisabled` of
any other string or of any value that is not a string (such as the boolean
`false`) is false. -/
theorem IsDisabled_spec {σ : Type} (s : dailySummarySetting σ) (v : Value) :
    (IsDisabled s v = true ↔ v = Value.string (go "false"))
      ∧ IsDisabled s (Value.string (go "false")) = true
      ∧ IsDisabled s (Value.string (go "true")) = false
      ∧ IsDisabled s (Value.bool false) = false
      ∧ (∀ x, x ≠ go "false" → IsDisabled s (Value.string x) = false)
      ∧ ((∀ x, v ≠ Value.string x) → IsDisabled s v = false) := by
  refine ⟨by simp [IsDisabled], by simp [IsDisabled], ?_, by simp [IsDisabled], ?_, ?_⟩
  · have h : go "true" ≠ go "false" := by decide
    simp [IsDisabled, h]
  · intro x hx
    simp [IsDisabled, hx]
  · intro hv
    simp only [IsDisabled, decide_eq_false_iff_not]
    exact hv _

/-- C12, for the string "off" and for the integer 0. -/
theorem IsDisabled_spec_witness :
    IsDisabled (NewDailySummarySetting (go "summary")
        (fixedStore (Value.dailySummary none, none) none) (fixedTimezone (go "UTC", none)))
        (Value.string (go "off")) = false
      ∧ IsDisabled (NewDailySummarySetting (go "summary")
        (fixedStore (Value.dailySummary none, none) none) (fixedTimezone (go "UTC", none)))
        (Value.int 0) = false :=
  ⟨(IsDisabled_spec _ (Value.int 0)).2.2.2.2.1 (go "off") (by decide),
   (IsDisabled_spec _ (Value.int 0)).2.2.2.2.2 (fun _ h => Value.noConfusion h)⟩

/-! ## Run-time panics of the render -/

/-- C13 fails as stated: for a stored record whose post time is the empty string,
or has no ":", the index `splitted[1]` is out of range, and for a post time with
fewer than two bytes after the ":" the slice `splitted[1][:2]` is out of range;
the call ends in a panic instead of returning. -/
theorem GetSlackAttachments_panics_on_malformed_postTime :
    (GetSlackAttachments
        (NewDailySummarySetting (go "summary")
          (fixedStore
            (Value.dailySummary
              (some { PostTime := go "", Timezone := go "UTC", Enable := false }), none) none)
          (fixedTimezone (go "UTC", none)))
        (go "user") (go "/settings") false { state := 0, calls := [] }).1 =
      Except.error Panic.indexOutOfRange
    ∧ (GetSlackAttachments
        (NewDailySummarySetting (go "summary")
          (fixedStore
            (Value.dailySummary
              (some { PostTime := go "830AM", Timezone := go "UTC", Enable := false }), none) none)
          (fixedTimezone (go "UTC", none)))
        (go "user") (go "/settings") false { state := 0, calls := [] }).1 =
      Except.error Panic.indexOutOfRange
    ∧ (GetSlackAttachments
        (NewDailySummarySetting (go "summary")
          (fixedStore
            (Value.dailySummary
              (some { PostTime := go "5:3", Timezone := go "UTC", Enable := false }), none) none)
          (fixedTimezone (go "UTC", none)))
        (go "user") (go "/settings") false { state := 0, calls := [] }).1 =
      Except.error Panic.sliceOutOfRange := by
  refine ⟨?_, ?_, ?_⟩ <;> decide

/-- C13, amended: when the post time of the stored record, split at ":", has a
part 1 of at least two bytes (every `<H>:<MM><AM|PM>` has), then for every
timezone-provider outcome and both values of `disabled`, `GetSlackAttachments`
returns either an attachment or an error, and the index and slice operations on
the split post time stay in range.  Without a record, when `Get` fails, and with
`disabled = true`, this holds for every store content. -/
theorem GetSlackAttachments_no_panic {σ : Type} (id : GoString) (st : SettingStore σ)
    (tzf : GoString → GoString × Option GoError) (userID settingHandler : GoString)
    (disabled : Bool) (w : World σ)
    (hrec : disabled = false → ∀ d,
      st.GetSetting w.state userID id = (Value.dailySummary (some d), none) →
      ∃ part, (stringsSplit 58 d.PostTime).get? 1 = some part ∧ 2 ≤ len part) :
    ((∃ sa, (GetSlackAttachments (NewDailySummarySetting id st tzf) userID settingHandler
          disabled w).1 = Except.ok (some sa, none))
      ∨ (∃ e, (GetSlackAttachments (NewDailySummarySetting id st tzf) userID settingHandler
          disabled w).1 = Except.ok (none, some e)))
    ∧ (disabled = false → ∀ d,
        st.GetSetting w.state userID id = (Value.dailySummary (some d), none) →
        ∃ r, decodePostTime d.PostTime = Except.ok r) := by
  have hdecode : disabled = false → ∀ d,
      st.GetSetting w.state userID id = (Value.dailySummary (some d), none) →
      ∃ r, decodePostTime d.PostTime = Except.ok r := by
    intro hd d hst
    obtain ⟨part, hpart, hlen⟩ := hrec hd d hst
    have h0 : ∃ x, (stringsSplit 58 d.PostTime).get? 0 = some x := by
      cases hs : stringsSplit 58 d.PostTime with
      | nil => rw [hs] at hpart; simp at hpart
      | cons a t => exact ⟨a, rfl⟩
    obtain ⟨x, hx⟩ := h0
    refine ⟨(x, part.take 2, part.drop 2), ?_⟩
    simp only [decodePostTime, index, hx, hpart, sliceTo, sliceFrom]
    simp [bind, Except.bind, hlen]
  refine ⟨?_, hdecode⟩
  cases disabled with
  | true =>
    left
    exact ⟨_, rfl⟩
  | false =>
    have hid : (NewDailySummarySetting id st tzf).id = id := rfl
    have hstore : (NewDailySummarySetting id st tzf).store = st := rfl
    have htzf : (NewDailySummarySetting id st tzf).getTimezone = tzf := rfl
    rcases hgs : st.GetSetting w.state userID id with ⟨v, e⟩
    rcases htz : tzf userID with ⟨tz, te⟩
    cases e with
    | some err =>
      right
      simp [GetSlackAttachments, Get, callGetSetting, hid, hstore, hgs]
    | none =>
      cases v with
      | dailySummary p =>
        cases p with
        | none =>
          cases te with
          | some terr =>
            right
            simp only [GetSlackAttachments, Get, callGetSetting, hid, hstore, hgs, htzf, htz]
            simp [bind, Except.bind]
          | none =>
            left
            simp only [GetSlackAttachments, Get, callGetSetting, hid, hstore, hgs, htzf, htz]
            simp [bind, Except.bind, makeAPMOptions_New]
        | some d =>
          obtain ⟨r, hr⟩ := hdecode rfl d hgs
          cases te with
          | some terr =>
            right
            simp only [GetSlackAttachments, Get, callGetSetting, hid, hstore, hgs, htzf, htz]
            simp [bind, Except.bind, hr]
          | none =>
            left
            simp only [GetSlackAttachments, Get, callGetSetting, hid, hstore, hgs, htzf, htz]
            simp [bind, Except.bind, makeAPMOptions_New, hr]
      | _ =>
        right
        simp [GetSlackAttachments, Get, callGetSetting, hid, hstore, hgs]

/-- C13 amended, for the stored record {"5:30PM", "America/New_York", true} and a
provider that fails. -/
theorem GetSlackAttachments_no_panic_witness :
    (∃ sa, (GetSlackAttachments
        (NewDailySummarySetting (go "summary")
          (fixedStore
            (Value.dailySummary
              (some { PostTime := go "5:30PM", Timezone := go "America/New_York",
                      Enable := true }), none) none)
          (fixedTimezone (go "UTC", some (GoError.foreign 1 (go "graph unavailable")))))
        (go "user") (go "/settings") false { state := 0, calls := [] }).1 =
          Except.ok (some sa, none))
      ∨ (∃ e, (GetSlackAttachments
        (NewDailySummarySetting (go "summary")
          (fixedStore
            (Value.dailySummary
              (some { PostTime := go "5:30PM", Timezone := go "America/New_York",
                      Enable := true }), none) none)
          (fixedTimezone (go "UTC", some (GoError.foreign 1 (go "graph unavailable")))))
        (go "user") (go "/settings") false { state := 0, calls := [] }).1 =
          Except.ok (none, some e)) :=
  (GetSlackAttachments_no_panic (go "summary")
    (fixedStore
      (Value.dailySummary
        (some { PostTime := go "5:30PM", Timezone := go "America/New_York", Enable := true }),
       none) none)
    (fixedTimezone (go "UTC", some (GoError.foreign 1 (go "graph unavailable"))))
    (go "user") (go "/settings") false { state := 0, calls := [] }
    (fun _ d hd => ⟨go "30PM", by cases hd; decide, by decide⟩)).1

/-! ## What `Set` validates -/

/-- C14 fails as stated: `Set` does not look at the form of a string.  The
strings "hello" and "" are accepted: the store's `SetSetting` is called with
them and `Set` returns `nil`. -/
theorem Set_accepts_any_string :
    Set (NewDailySummarySetting (go "summary") (fixedStore (Value.dailySummary none, none) none)
          (fixedTimezone (go "UTC", none))) (go "user") (Value.string (go "hello"))
          { state := 0, calls := [] } =
        (none,
         { state := 1
           calls := [StoreCall.SetSetting (go "user") (go "summary") (Value.string (go "hello"))] })
      ∧ Set (NewDailySummarySetting (go "summary")
          (fixedStore (Value.dailySummary none, none) none)
          (fixedTimezone (go "UTC", none))) (go "user") (Value.string (go ""))
          { state := 0, calls := [] } =
        (none,
         { state := 1
           calls := [StoreCall.SetSetting (go "user") (go "summary") (Value.string (go ""))] }) :=
  ⟨rfl, rfl⟩

/-- C14, amended: `Set` validates the dynamic type of its value only.  A value
that is not a string is rejected with the error "trying to set Daily Summary
Setting without a string value" and nothing is written; a string, whatever its
form, is handed to the store's `SetSetting` unchanged, once, and the store's
answer is returned. -/
theorem Set_checks_type_only {σ : Type} (s : dailySummarySetting σ) (userID : GoString)
    (value : Value) (w : World σ) :
    ((∀ v, value ≠ Value.string v) →
        Set s userID value w =
          (some (GoError.errorsNew
            (go "trying to set Daily Summary Setting without a string value")), w))
      ∧ (∀ v, value = Value.string v →
          (Set s userID value w).1 = (s.store.SetSetting w.state userID s.id value).2
          ∧ (Set s userID value w).2.state = (s.store.SetSetting w.state userID s.id value).1
          ∧ (Set s userID value w).2.calls =
              w.calls ++ [StoreCall.SetSetting userID s.id value]) := by
  refine ⟨?_, ?_⟩
  · intro hv
    cases value with
    | string v => exact absurd rfl (hv v)
    | _ => rfl
  · intro v hv
    subst hv
    simp only [Set, callSetSetting]
    cases (s.store.SetSetting w.state userID s.id (Value.string v)).2 <;> simp

/-- C14 amended, for the string "hello" and a store that accepts the write. -/
theorem Set_checks_type_only_witness :
    (Set (NewDailySummarySetting (go "summary") (fixedStore (Value.dailySummary none, none) none)
        (fixedTimezone (go "UTC", none))) (go "user") (Value.string (go "hello"))
        { state := 0, calls := [] }).2.calls =
      [] ++ [StoreCall.SetSetting (go "user") (go "summary") (Value.string (go "hello"))] :=
  ((Set_checks_type_only
    (NewDailySummarySetting (go "summary") (fixedStore (Value.dailySummary none, none) none)
      (fixedTimezone (go "UTC", none)))
    (go "user") (Value.string (go "hello")) { state := 0, calls := [] }).2 (go "hello") rfl).2.2

/-! ## The render writes nothing -/

/-- C16: whatever the user, the endpoint, the value of `disabled`, the store
content and the timezone-provider outcome, `GetSlackAttachments` never calls the
store's `SetSetting`: the call log grows by at most one `GetSetting` and the
store state after the call is the store state before it; so whatever
`GetSetting` answered before the render (a missing record included) it answers
after it. -/
theorem GetSlackAttachments_store_unchanged {σ : Type} (s : dailySummarySetting σ)
    (userID settingHandler : GoString) (disabled : Bool) (w : World σ) :
    (GetSlackAttachments s userID settingHandler disabled w).2.state = w.state
      ∧ (GetSlackAttachments s userID settingHandler disabled w).2.calls =
          (if disabled then w.calls else w.calls ++ [StoreCall.GetSetting userID s.id])
      ∧ (∀ u i v, StoreCall.SetSetting u i v ∈
            (GetSlackAttachments s userID settingHandler disabled w).2.calls →
          StoreCall.SetSetting u i v ∈ w.calls)
      ∧ (∀ u i, s.store.GetSetting
            (GetSlackAttachments s userID settingHandler disabled w).2.state u i =
          s.store.GetSetting w.state u i) := by
  have hstate : (GetSlackAttachments s userID settingHandler disabled w).2.state = w.state := by
    cases disabled
    · simp only [GetSlackAttachments, Get, callGetSetting]
      rcases s.store.GetSetting w.state userID s.id with ⟨v, e⟩
      cases e <;> cases v <;> rfl
    · rfl
  have hcalls : (GetSlackAttachments s userID settingHandler disabled w).2.calls =
      (if disabled then w.calls else w.calls ++ [StoreCall.GetSetting userID s.id]) := by
    cases disabled
    · simp only [GetSlackAttachments, Get, callGetSetting]
      rcases s.store.GetSetting w.state userID s.id with ⟨v, e⟩
      cases e <;> cases v <;> rfl
    · rfl
  refine ⟨hstate, hcalls, ?_, ?_⟩
  · intro u i v hmem
    rw [hcalls] at hmem
    cases disabled
    · simpa using hmem
    · simpa using hmem
  · intro u i
    rw [hstate]

/-- C16, for a store that holds a record and a log that already holds one write:
after the render the state is the same, and the only `SetSetting` in the log is
the earlier one. -/
theorem GetSlackAttachments_store_unchanged_witness :
    (GetSlackAttachments
        (NewDailySummarySetting (go "summary")
          (fixedStore
            (Value.dailySummary
              (some { PostTime := go "5:30PM", Timezone := go "America/New_York",
                      Enable := true }), none) none)
          (fixedTimezone (go "UTC", none)))
        (go "user") (go "/settings") false
        { state := 1
          calls := [StoreCall.SetSetting (go "user") (go "summary")
            (Value.string (go "5:30PM UTC"))] }).2.state = 1
      ∧ StoreCall.SetSetting (go "user") (go "summary") (Value.string (go "5:30PM UTC")) ∈
          [StoreCall.SetSetting (go "user") (go "summary") (Value.string (go "5:30PM UTC"))] :=
  ⟨(GetSlackAttachments_store_unchanged
      (NewDailySummarySetting (go "summary")
        (fixedStore
          (Value.dailySummary
            (some { PostTime := go "5:30PM", Timezone := go "America/New_York",
                    Enable := true }), none) none)
        (fixedTimezone (go "UTC", none)))
      (go "user") (go "/settings") false
      { state := 1
        calls := [StoreCall.SetSetting (go "user") (go "summary")
          (Value.string (go "5:30PM UTC"))] }).1,
   (GetSlackAttachments_store_unchanged
      (NewDailySummarySetting (go "summary")
        (fixedStore
          (Value.dailySummary
            (some { PostTime := go "5:30PM", Timezone := go "America/New_York",
                    Enable := true }), none) none)
        (fixedTimezone (go "UTC", none)))
      (go "user") (go "/settings") false
      { state := 1
        calls := [StoreCall.SetSetting (go "user") (go "summary")
          (Value.string (go "5:30PM UTC"))] }).2.2.1 _ _ _ (by decide)⟩

/-! ## The invariant of the time picker -/

theorem hoursAM_eq : (List.range 12).map sprintfD =
    [go "0", go "1", go "2", go "3", go "4", go "5", go "6", go "7", go "8", go "9",
     go "10", go "11"] := by decide

theorem hoursPM_eq : (List.range' 1 12).map sprintfD =
    [go "1", go "2", go "3", go "4", go "5", go "6", go "7", go "8", go "9", go "10",
     go "11", go "12"] := by decide

theorem sprintfTime_eq (a b c d : GoString) :
    sprintfTime a b c d = (a ++ go ":" ++ b ++ c) ++ go " " ++ d := by
  simp [sprintfTime]

theorem ValidPostTime_decode (h mm apm : GoString) (hv : ValidPostTime h mm apm) :
    decodePostTime (h ++ go ":" ++ mm ++ apm) = Except.ok (h, mm, apm) := by
  obtain ⟨hmm, hh⟩ := hv
  have hm1 : mm.length = 2 := by
    simp only [List.mem_cons, List.mem_singleton, List.not_mem_nil, or_false] at hmm
    rcases hmm with rfl | rfl | rfl | rfl <;> decide
  have hm2 : ∀ b ∈ mm, b ≠ 58 := by
    simp only [List.mem_cons, List.mem_singleton, List.not_mem_nil, or_false] at hmm
    rcases hmm with rfl | rfl | rfl | rfl <;> decide
  have hAM : ∀ x ∈ (List.range 12).map sprintfD, ∀ b ∈ x, b ≠ 58 := by decide
  have hPM : ∀ x ∈ (List.range' 1 12).map sprintfD, ∀ b ∈ x, b ≠ 58 := by decide
  rcases hh with ⟨rfl, hh⟩ | ⟨rfl, hh⟩
  · exact decodePostTime_wellFormed h mm _ (hAM h hh) hm1 hm2 (by decide)
  · exact decodePostTime_wellFormed h mm _ (hPM h hh) hm1 hm2 (by decide)

theorem ValidPostTime_hour (h mm apm : GoString) (hv : ValidPostTime h mm apm) :
    h ∈ (List.range 13).map sprintfD := by
  have e13 : (List.range 13).map sprintfD =
      [go "0", go "1", go "2", go "3", go "4", go "5", go "6", go "7", go "8", go "9",
       go "10", go "11", go "12"] := by decide
  obtain ⟨_, hh⟩ := hv
  rw [e13]
  rcases hh with ⟨_, hh⟩ | ⟨_, hh⟩
  · rw [hoursAM_eq] at hh
    simp only [List.mem_cons, List.mem_singleton, List.not_mem_nil, or_false] at hh ⊢
    tauto
  · rw [hoursPM_eq] at hh
    simp only [List.mem_cons, List.mem_singleton, List.not_mem_nil, or_false] at hh ⊢
    tauto

/-- Every option offered for a valid post time carries a valid post time. -/
theorem options_valid {σ : Type} (id : GoString) (st : SettingStore σ)
    (tzf : GoString → GoString × Option GoError) (h mm apm tz : GoString)
    (hv : ValidPostTime h mm apm) (o : PostActionOptions)
    (ho : o ∈ makeHOptions (NewDailySummarySetting id st tzf) mm apm tz
        ++ makeMOptions (NewDailySummarySetting id st tzf) h apm tz
        ++ [ { Text := go "AM"
               Value := sprintfTime (if h = go "12" then go "0" else h) mm (go "AM") tz },
             { Text := go "PM"
               Value := sprintfTime (if h = go "0" then go "12" else h) mm (go "PM") tz } ]) :
    ∃ h2 mm2 apm2, ValidPostTime h2 mm2 apm2
      ∧ o.Value = h2 ++ go ":" ++ mm2 ++ apm2 ++ go " " ++ tz := by
  have hap : go "AM" ≠ go "PM" := by decide
  have h13 := ValidPostTime_hour h mm apm hv
  obtain ⟨hmm, hh⟩ := hv
  rw [makeHOptions_New, makeMOptions_New] at ho
  simp only [List.mem_append, List.mem_map, List.mem_cons, List.mem_singleton,
    List.not_mem_nil, or_false] at ho
  rcases ho with (⟨l, hl, rfl⟩ | ⟨l, hl, rfl⟩) | rfl | rfl
  · refine ⟨l, mm, apm, ⟨hmm, ?_⟩, sprintfTime_eq _ _ _ _⟩
    rcases hh with ⟨rfl, _⟩ | ⟨rfl, _⟩
    · left
      refine ⟨rfl, ?_⟩
      rw [hoursAM_eq]
      simp only [hap, if_false, List.mem_cons, List.mem_singleton, List.not_mem_nil,
        or_false] at hl ⊢
      tauto
    · right
      refine ⟨rfl, ?_⟩
      rw [hoursPM_eq]
      simp only [if_true, List.mem_cons, List.mem_singleton, List.not_mem_nil,
        or_false] at hl ⊢
      tauto
  · refine ⟨h, l, apm, ⟨?_, hh⟩, sprintfTime_eq _ _ _ _⟩
    simp only [List.mem_cons, List.mem_singleton, List.not_mem_nil, or_false]
    tauto
  · refine ⟨_, mm, go "AM", ⟨hmm, Or.inl ⟨rfl, ?_⟩⟩, sprintfTime_eq _ _ _ _⟩
    have key : ∀ x ∈ (List.range 13).map sprintfD,
        (if x = go "12" then go "0" else x) ∈ (List.range 12).map sprintfD := by decide
    exact key h h13
  · refine ⟨_, mm, go "PM", ⟨hmm, Or.inr ⟨rfl, ?_⟩⟩, sprintfTime_eq _ _ _ _⟩
    have key : ∀ x ∈ (List.range 13).map sprintfD,
        (if x = go "0" then go "12" else x) ∈ (List.range' 1 12).map sprintfD := by decide
    exact key h h13

/-- A selection from a valid post time leads to a valid post time. -/
theorem selection_valid {σ : Type} (id : GoString) (st : SettingStore σ)
    (tzf : GoString → GoString × Option GoError) (h mm apm tz p h2 mm2 apm2 : GoString)
    (hv : ValidPostTime h mm apm) (o : PostActionOptions)
    (ho : o ∈ makeHOptions (NewDailySummarySetting id st tzf) mm apm tz
        ++ makeMOptions (NewDailySummarySetting id st tzf) h apm tz
        ++ [ { Text := go "AM"
               Value := sprintfTime (if h = go "12" then go "0" else h) mm (go "AM") tz },
             { Text := go "PM"
               Value := sprintfTime (if h = go "0" then go "12" else h) mm (go "PM") tz } ])
    (hp : o.Value = p ++ go " " ++ tz)
    (hd : decodePostTime p = Except.ok (h2, mm2, apm2)) : ValidPostTime h2 mm2 apm2 := by
  obtain ⟨a, b, c, hvalid, hval⟩ := options_valid id st tzf h mm apm tz hv o ho
  rw [hp] at hval
  have h1 := List.append_cancel_right hval
  have h2 := List.append_cancel_right h1
  rw [h2, ValidPostTime_decode a b c hvalid] at hd
  injection hd with hd
  injection hd with ha hbc
  injection hbc with hb hc
  subst ha hb hc
  exact hvalid

/-- C15: the invariant of the time picker.  The default 8:00AM is a valid post
time; for every valid current post time and every timezone `tz`, every option
value produced by `makeHOptions`, `makeMOptions` and `makeAPMOptions` is
`<p> <tz>` for a valid post time `p` (which decodes to its components); hence
every post time reachable from the default by selections is valid, with its
minute in {00,15,30,45} and its hour in 0..12. -/
theorem ValidPostTime_invariant {σ : Type} (id : GoString) (st : SettingStore σ)
    (tzf : GoString → GoString × Option GoError) :
    ValidPostTime (go "8") (go "00") (go "AM")
      ∧ (∀ h mm apm tz, ValidPostTime h mm apm →
          ∃ optsAPM,
            makeAPMOptions (NewDailySummarySetting id st tzf) h mm tz = Except.ok optsAPM
            ∧ ∀ o ∈ makeHOptions (NewDailySummarySetting id st tzf) mm apm tz
                ++ makeMOptions (NewDailySummarySetting id st tzf) h apm tz ++ optsAPM,
              ∃ h2 mm2 apm2, ValidPostTime h2 mm2 apm2
                ∧ o.Value = h2 ++ go ":" ++ mm2 ++ apm2 ++ go " " ++ tz
                ∧ decodePostTime (h2 ++ go ":" ++ mm2 ++ apm2) = Except.ok (h2, mm2, apm2))
      ∧ (∀ h mm apm, Reachable (NewDailySummarySetting id st tzf) h mm apm →
          ValidPostTime h mm apm
            ∧ mm ∈ [go "00", go "15", go "30", go "45"]
            ∧ h ∈ (List.range 13).map sprintfD) := by
  refine ⟨by decide, ?_, ?_⟩
  · intro h mm apm tz hv
    refine ⟨_, makeAPMOptions_New id st tzf h mm tz, ?_⟩
    intro o ho
    obtain ⟨a, b, c, hvalid, hval⟩ := options_valid id st tzf h mm apm tz hv o ho
    exact ⟨a, b, c, hvalid, hval, ValidPostTime_decode a b c hvalid⟩
  · intro h mm apm hr
    have hvalid : ValidPostTime h mm apm := by
      induction hr with
      | default => decide
      | selectH h mm apm tz p h2 mm2 apm2 o _ ho hp hd ih =>
        refine selection_valid id st tzf h mm apm tz p h2 mm2 apm2 ih o ?_ hp hd
        simp only [List.mem_append]
        exact Or.inl (Or.inl ho)
      | selectM h mm apm tz p h2 mm2 apm2 o _ ho hp hd ih =>
        refine selection_valid id st tzf h mm apm tz p h2 mm2 apm2 ih o ?_ hp hd
        simp only [List.mem_append]
        exact Or.inl (Or.inr ho)
      | selectAPM h mm apm tz p h2 mm2 apm2 o opts _ hopts ho hp hd ih =>
        refine selection_valid id st tzf h mm apm tz p h2 mm2 apm2 ih o ?_ hp hd
        rw [makeAPMOptions_New] at hopts
        injection hopts with hopts
        rw [← hopts] at ho
        simp only [List.mem_append]
        exact Or.inr ho
    exact ⟨hvalid, hvalid.1, ValidPostTime_hour h mm apm hvalid⟩

/-- C15, at the current post time 12:30PM with the timezone "UTC", and for the
post time 0:30AM reached from the default by selecting 8:30AM, then 8:30PM, then
12:30PM and then the AM option. -/
theorem ValidPostTime_invariant_witness :
    (∃ optsAPM,
      makeAPMOptions
          (NewDailySummarySetting (go "summary")
            (fixedStore (Value.dailySummary none, none) none) (fixedTimezone (go "UTC", none)))
          (go "12") (go "30") (go "UTC") = Except.ok optsAPM
      ∧ ∀ o ∈ makeHOptions
            (NewDailySummarySetting (go "summary")
              (fixedStore (Value.dailySummary none, none) none)
              (fixedTimezone (go "UTC", none)))
            (go "30") (go "PM") (go "UTC")
          ++ makeMOptions
            (NewDailySummarySetting (go "summary")
              (fixedStore (Value.dailySummary none, none) none)
              (fixedTimezone (go "UTC", none)))
            (go "12") (go "PM") (go "UTC") ++ optsAPM,
        ∃ h2 mm2 apm2, ValidPostTime h2 mm2 apm2
          ∧ o.Value = h2 ++ go ":" ++ mm2 ++ apm2 ++ go " " ++ go "UTC"
          ∧ decodePostTime (h2 ++ go ":" ++ mm2 ++ apm2) = Except.ok (h2, mm2, apm2))
    ∧ ValidPostTime (go "0") (go "30") (go "AM") :=
  ⟨(ValidPostTime_invariant (go "summary") (fixedStore (Value.dailySummary none, none) none)
      (fixedTimezone (go "UTC", none))).2.1 (go "12") (go "30") (go "PM") (go "UTC") (by decide),
   ((ValidPostTime_invariant (go "summary") (fixedStore (Value.dailySummary none, none) none)
      (fixedTimezone (go "UTC", none))).2.2 (go "0") (go "30") (go "AM")
      (Reachable.selectAPM (go "12") (go "30") (go "PM") (go "UTC") (go "0:30AM")
        (go "0") (go "30") (go "AM")
        { Text := go "AM", Value := go "0:30AM UTC" } _
        (Reachable.selectH (go "8") (go "30") (go "PM") (go "UTC") (go "12:30PM")
          (go "12") (go "30") (go "PM")
          { Text := go "12", Value := go "12:30PM UTC" }
          (Reachable.selectAPM (go "8") (go "30") (go "AM") (go "UTC") (go "8:30PM")
            (go "8") (go "30") (go "PM")
            { Text := go "PM", Value := go "8:30PM UTC" } _
            (Reachable.selectM (go "8") (go "00") (go "AM") (go "UTC") (go "8:30AM")
              (go "8") (go "30") (go "AM")
              { Text := go "30", Value := go "8:30AM UTC" }
              Reachable.default (by decide) (by decide) (by decide))
            (makeAPMOptions_New _ _ _ _ _ _) (by decide) (by decide) (by decide))
          (by decide) (by decide) (by decide))
        (makeAPMOptions_New _ _ _ _ _ _) (by decide) (by decide) (by decide))).1⟩

/-! ## The default option of each selector -/

/-- The attachment of a successful render without a record, spelled out. -/
theorem GetSlackAttachments_unset {σ : Type} (id : GoString) (st : SettingStore σ)
    (tzf : GoString → GoString × Option GoError) (userID settingHandler tz : GoString)
    (w : World σ)
    (hst : st.GetSetting w.state userID id = (Value.dailySummary none, none))
    (htz : tzf userID = (tz, none)) :
    (GetSlackAttachments (NewDailySummarySetting id st tzf) userID settingHandler
        false w).1 =
      Except.ok
        (some
          { Title := go "Setting: Daily Summary"
            Text := (NewDailySummarySetting id st tzf).description
              ++ go "\nCurrent value: " ++ go "Not set."
            Actions :=
              [ { Name := go "H:"
                  Integration :=
                    { URL := settingHandler
                      Context := [(ContextKey.ContextIDKey, Value.string id)] }
                  Type_ := go "select"
                  Options :=
                    makeHOptions (NewDailySummarySetting id st tzf) (go "00") (go "AM") tz
                  DefaultOption := go "8:00AM" ++ go " " ++ tz },
                { Name := go "M:"
                  Integration :=
                    { URL := settingHandler
                      Context := [(ContextKey.ContextIDKey, Value.string id)] }
                  Type_ := go "select"
                  Options :=
                    makeMOptions (NewDailySummarySetting id st tzf) (go "8") (go "AM") tz
                  DefaultOption := go "8:00AM" ++ go " " ++ tz },
                { Name := go "AM/PM:"
                  Integration :=
                    { URL := settingHandler
                      Context := [(ContextKey.ContextIDKey, Value.string id)] }
                  Type_ := go "select"
                  Options :=
                    [ { Text := go "AM"
                        Value := sprintfTime (if go "8" = go "12" then go "0" else go "8")
                          (go "00") (go "AM") tz },
                      { Text := go "PM"
                        Value := sprintfTime (if go "8" = go "0" then go "12" else go "8")
                          (go "00") (go "PM") tz } ]
                  DefaultOption := go "8:00AM" ++ go " " ++ tz },
                { Name := go "Enable"
                  Integration :=
                    { URL := settingHandler
                      Context :=
                        [(ContextKey.ContextIDKey, Value.string id),
                         (ContextKey.ContextButtonValueKey,
                          Value.string (go "true" ++ go " " ++ tz))] }
                  Type_ := go ""
                  Options := []
                  DefaultOption := go "" } ] },
         none) := by
  have hg := Get_of_GetSetting (NewDailySummarySetting id st tzf) userID w none hst
  have htz2 : (NewDailySummarySetting id st tzf).getTimezone userID = (tz, none) := htz
  have hid : (NewDailySummarySetting id st tzf).id = id := rfl
  have hnl : ∀ x : GoString, go "\n" ++ (go "Current value: " ++ x) = go "\nCurrent value: " ++ x :=
    fun _ => rfl
  simp only [GetSlackAttachments, hg, htz2, title_New, hid]
  simp [bind, Except.bind, makeAPMOptions_New, hnl]

theorem countP_eq_one_of_nodup {α : Type} [DecidableEq α] (l : List α) (hnd : l.Nodup)
    (a : α) (ha : a ∈ l) : l.countP (fun x => decide (x = a)) = 1 := by
  induction l with
  | nil => simp at ha
  | cons x xs ih =>
    rw [List.nodup_cons] at hnd
    by_cases hx : x = a
    · subst hx
      have h0 : xs.countP (fun y => decide (y = x)) = 0 := by
        rw [List.countP_eq_zero]
        intro y hy
        simp only [decide_eq_true_eq]
        intro hyx
        exact hnd.1 (hyx ▸ hy)
      simp [List.countP_cons, h0]
    · have ha2 : a ∈ xs := by
        rcases List.mem_cons.1 ha with h | h
        · exact absurd h.symm hx
        · exact h
      simp [List.countP_cons, hx, ih hnd.2 ha2]

theorem countP_map_eq_one (f : GoString → GoString) (hf : Function.Injective f)
    (l : List GoString) (hnd : l.Nodup) (a : GoString) (ha : a ∈ l) :
    (l.map (fun x => ({ Text := x, Value := f x } : PostActionOptions))).countP
      (fun o => decide (o.Value = f a)) = 1 := by
  rw [List.countP_map]
  have hfun : ((fun o : PostActionOptions => decide (o.Value = f a)) ∘
      fun x => ({ Text := x, Value := f x } : PostActionOptions)) = fun x => decide (x = a) := by
    funext x
    simp [hf.eq_iff]
  rw [hfun]
  exact countP_eq_one_of_nodup l hnd a ha

theorem sprintfTime_apm_ne (a b m tz : GoString) :
    sprintfTime a m (go "PM") tz ≠ sprintfTime b m (go "AM") tz := by
  intro h
  rw [sprintfTime_eq, sprintfTime_eq] at h
  have h1 := List.append_cancel_right (List.append_cancel_right h)
  have h2 := (List.append_inj' h1 (by decide)).2
  exact absurd h2 (by decide)

/-- For a valid post time, its encoded value is the value of exactly one option
of each of the three option lists. -/
theorem selectors_count {σ : Type} (id : GoString) (st : SettingStore σ)
    (tzf : GoString → GoString × Option GoError) (h mm apm tz : GoString)
    (hv : ValidPostTime h mm apm) :
    (makeHOptions (NewDailySummarySetting id st tzf) mm apm tz).countP
        (fun o => decide (o.Value = sprintfTime h mm apm tz)) = 1
      ∧ (makeMOptions (NewDailySummarySetting id st tzf) h apm tz).countP
        (fun o => decide (o.Value = sprintfTime h mm apm tz)) = 1
      ∧ ([ { Text := go "AM"
             Value := sprintfTime (if h = go "12" then go "0" else h) mm (go "AM") tz },
           { Text := go "PM"
             Value := sprintfTime (if h = go "0" then go "12" else h) mm (go "PM") tz } ] :
            List PostActionOptions).countP
        (fun o => decide (o.Value = sprintfTime h mm apm tz)) = 1 := by
  have hap : go "AM" ≠ go "PM" := by decide
  obtain ⟨hmm, hh⟩ := hv
  have injH : Function.Injective (fun l : GoString => sprintfTime l mm apm tz) := by
    intro a b hab
    simp only [sprintfTime, List.append_assoc] at hab
    exact List.append_cancel_right hab
  have injM : Function.Injective (fun l : GoString => sprintfTime h l apm tz) := by
    intro a b hab
    simp only [sprintfTime, List.append_assoc] at hab
    exact List.append_cancel_right (List.append_cancel_left (List.append_cancel_left hab))
  refine ⟨?_, ?_, ?_⟩
  · rw [makeHOptions_New]
    refine countP_map_eq_one (fun l : GoString => sprintfTime l mm apm tz) injH _ ?_ h ?_
    · rcases hh with ⟨rfl, _⟩ | ⟨rfl, _⟩ <;> decide
    · rcases hh with ⟨rfl, hh⟩ | ⟨rfl, hh⟩
      · rw [hoursAM_eq] at hh
        simpa [hap] using hh
      · rw [hoursPM_eq] at hh
        simp only [if_true, List.mem_cons, List.mem_singleton, List.not_mem_nil,
          or_false] at hh ⊢
        tauto
  · rw [makeMOptions_New]
    exact countP_map_eq_one (fun l : GoString => sprintfTime h l apm tz) injM _ (by decide) mm hmm
  · rcases hh with ⟨rfl, hh⟩ | ⟨rfl, hh⟩
    · have h12 : ∀ x ∈ (List.range 12).map sprintfD, x ≠ go "12" := by decide
      have hne := sprintfTime_apm_ne (if h = go "0" then go "12" else h) h mm tz
      simp [List.countP_cons, h12 h hh, hne]
    · have h0 : ∀ x ∈ (List.range' 1 12).map sprintfD, x ≠ go "0" := by decide
      have hne := sprintfTime_apm_ne h (if h = go "12" then go "0" else h) mm tz
      simp [List.countP_cons, h0 h hh, hne.symm]

/-- C17: each selector carries the current selection as its default.  When the
current post time is the default 8:00AM (no record) or a stored post time with
minute in {00,15,30,45} and hour in 0..11 with AM or 1..12 with PM, and the
provider returns `tz`, `GetSlackAttachments` with `disabled = false` succeeds and
gives each of the hour, minute and AM/PM selectors the default option
`<postTime> <tz>`, which is the value of exactly one option of that selector's
own option list. -/
theorem GetSlackAttachments_default_option {σ : Type} (id : GoString) (st : SettingStore σ)
    (tzf : GoString → GoString × Option GoError) (userID settingHandler tz : GoString)
    (w : World σ) (p : Option DailySummaryUserSettings)
    (hget : st.GetSetting w.state userID id = (Value.dailySummary p, none))
    (htz : tzf userID = (tz, none))
    (hvalid : ∀ d, p = some d →
      ∃ h mm apm, d.PostTime = h ++ go ":" ++ mm ++ apm ∧ ValidPostTime h mm apm) :
    ∃ (sa : SlackAttachment) (aH aM aAPM toggle : PostAction),
      (GetSlackAttachments (NewDailySummarySetting id st tzf) userID settingHandler
          false w).1 = Except.ok (some sa, none)
      ∧ sa.Actions = [aH, aM, aAPM, toggle]
      ∧ aH.Name = go "H:" ∧ aM.Name = go "M:" ∧ aAPM.Name = go "AM/PM:"
      ∧ ∀ a ∈ [aH, aM, aAPM],
          a.DefaultOption =
              (match p with
                | none => go "8:00AM"
                | some d => d.PostTime) ++ go " " ++ tz
            ∧ a.Options.countP (fun o => decide (o.Value = a.DefaultOption)) = 1 := by
  cases p with
  | none =>
    have hmain := GetSlackAttachments_unset id st tzf userID settingHandler tz w hget htz
    have sc := selectors_count id st tzf (go "8") (go "00") (go "AM") tz (by decide)
    have hdef : go "8:00AM" ++ go " " ++ tz = sprintfTime (go "8") (go "00") (go "AM") tz := rfl
    refine ⟨_, _, _, _, _, hmain, rfl, rfl, rfl, rfl, ?_⟩
    intro a ha
    simp only [List.mem_cons, List.mem_singleton, List.not_mem_nil, or_false] at ha
    rcases ha with rfl | rfl | rfl
    · exact ⟨rfl, hdef ▸ sc.1⟩
    · exact ⟨rfl, hdef ▸ sc.2.1⟩
    · exact ⟨rfl, hdef ▸ sc.2.2⟩
  | some d =>
    obtain ⟨h, mm, apm, hpt, hv⟩ := hvalid d rfl
    have hdec : decodePostTime d.PostTime = Except.ok (h, mm, apm) := by
      rw [hpt]
      exact ValidPostTime_decode h mm apm hv
    have hmain := GetSlackAttachments_stored id st tzf userID settingHandler tz w d h mm apm
      hget hdec htz
    have sc := selectors_count id st tzf h mm apm tz hv
    have hdef : d.PostTime ++ go " " ++ tz = sprintfTime h mm apm tz := by
      rw [hpt, sprintfTime_eq]
    refine ⟨_, _, _, _, _, hmain, rfl, rfl, rfl, rfl, ?_⟩
    intro a ha
    simp only [List.mem_cons, List.mem_singleton, List.not_mem_nil, or_false] at ha
    rcases ha with rfl | rfl | rfl
    · exact ⟨rfl, hdef ▸ sc.1⟩
    · exact ⟨rfl, hdef ▸ sc.2.1⟩
    · exact ⟨rfl, hdef ▸ sc.2.2⟩

/-- C17, for the stored record {"12:30PM", "America/New_York", true} and the live
timezone "UTC". -/
theorem GetSlackAttachments_default_option_witness :
    ∃ (sa : SlackAttachment) (aH aM aAPM toggle : PostAction),
      (GetSlackAttachments
          (NewDailySummarySetting (go "summary")
            (fixedStore
              (Value.dailySummary
                (some { PostTime := go "12:30PM", Timezone := go "America/New_York",
                        Enable := true }), none) none)
            (fixedTimezone (go "UTC", none)))
          (go "user") (go "/settings") false { state := 0, calls := [] }).1 =
        Except.ok (some sa, none)
      ∧ sa.Actions = [aH, aM, aAPM, toggle]
      ∧ aH.Name = go "H:" ∧ aM.Name = go "M:" ∧ aAPM.Name = go "AM/PM:"
      ∧ ∀ a ∈ [aH, aM, aAPM],
          a.DefaultOption = go "12:30PM" ++ go " " ++ go "UTC"
            ∧ a.Options.countP (fun o => decide (o.Value = a.DefaultOption)) = 1 :=
  GetSlackAttachments_default_option (go "summary") _ _ (go "user") (go "/settings") (go "UTC")
    { state := 0, calls := [] }
    (some { PostTime := go "12:30PM", Timezone := go "America/New_York", Enable := true })
    rfl rfl
    (fun d hd => ⟨go "12", go "30", go "PM", by cases hd; decide, by decide⟩)

/-! ## The actions of a successful render -/

/-- C18: a successful `GetSlackAttachments` with `disabled = false` has exactly
four actions, in the order hour selector, minute selector, AM/PM selector,
toggle.  The toggle is named "Disable" with button value `false <tz>` when the
stored record is enabled, and "Enable" with button value `true <tz>` when the
stored record is not enabled or there is no record, `tz` being the timezone the
provider returned. -/
theorem GetSlackAttachments_actions {σ : Type} (id : GoString) (st : SettingStore σ)
    (tzf : GoString → GoString × Option GoError) (userID settingHandler : GoString)
    (w : World σ) (sa : SlackAttachment)
    (hres : (GetSlackAttachments (NewDailySummarySetting id st tzf) userID settingHandler
      false w).1 = Except.ok (some sa, none)) :
    ∃ (p : Option DailySummaryUserSettings) (aH aM aAPM toggle : PostAction),
      st.GetSetting w.state userID id = (Value.dailySummary p, none)
      ∧ (tzf userID).2 = none
      ∧ sa.Actions = [aH, aM, aAPM, toggle]
      ∧ (aH.Name = go "H:" ∧ aH.Type_ = go "select")
      ∧ (aM.Name = go "M:" ∧ aM.Type_ = go "select")
      ∧ (aAPM.Name = go "AM/PM:" ∧ aAPM.Type_ = go "select")
      ∧ (∀ d, p = some d → d.Enable = true →
          toggle.Name = go "Disable"
          ∧ contextGet toggle.Integration.Context ContextKey.ContextButtonValueKey =
              some (Value.string (go "false" ++ go " " ++ (tzf userID).1)))
      ∧ ((p = none ∨ ∃ d, p = some d ∧ d.Enable = false) →
          toggle.Name = go "Enable"
          ∧ contextGet toggle.Integration.Context ContextKey.ContextButtonValueKey =
              some (Value.string (go "true" ++ go " " ++ (tzf userID).1))) := by
  have hid : (NewDailySummarySetting id st tzf).id = id := rfl
  have hstore : (NewDailySummarySetting id st tzf).store = st := rfl
  have htzf : (NewDailySummarySetting id st tzf).getTimezone = tzf := rfl
  rcases hgs : st.GetSetting w.state userID id with ⟨v, e⟩
  rcases htz : tzf userID with ⟨tz, te⟩
  cases e with
  | some err =>
    simp [GetSlackAttachments, Get, callGetSetting, hid, hstore, hgs] at hres
  | none =>
    cases v with
    | dailySummary p =>
      cases te with
      | some terr =>
        cases p with
        | none =>
          simp only [GetSlackAttachments, Get, callGetSetting, hid, hstore, hgs, htzf, htz]
            at hres
          simp [bind, Except.bind] at hres
        | some d =>
          simp only [GetSlackAttachments, Get, callGetSetting, hid, hstore, hgs, htzf, htz]
            at hres
          cases hdec : decodePostTime d.PostTime <;> simp [bind, Except.bind, hdec] at hres
      | none =>
        cases p with
        | none =>
          rw [GetSlackAttachments_unset id st tzf userID settingHandler tz w hgs htz] at hres
          injection hres with hres
          injection hres with hres _
          injection hres with hres
          subst hres
          refine ⟨none, _, _, _, _, rfl, rfl, rfl, ⟨rfl, rfl⟩, ⟨rfl, rfl⟩, ⟨rfl, rfl⟩, ?_, ?_⟩
          · intro d hd
            cases hd
          · intro _
            exact ⟨rfl, rfl⟩
        | some d =>
          cases hdec : decodePostTime d.PostTime with
          | error perr =>
            simp only [GetSlackAttachments, Get, callGetSetting, hid, hstore, hgs, htzf, htz]
              at hres
            simp [bind, Except.bind, hdec] at hres
          | ok r =>
            obtain ⟨H, M, A⟩ := r
            rw [GetSlackAttachments_stored id st tzf userID settingHandler tz w d H M A
              hgs hdec htz] at hres
            injection hres with hres
            injection hres with hres _
            injection hres with hres
            subst hres
            refine ⟨some d, _, _, _, _, rfl, rfl, rfl, ⟨rfl, rfl⟩, ⟨rfl, rfl⟩, ⟨rfl, rfl⟩,
              ?_, ?_⟩
            · intro d2 hd hen
              cases hd
              simp [contextGet, hen]
            · intro hor
              rcases hor with hnone | ⟨d2, hd, hen⟩
              · cases hnone
              · cases hd
                simp [contextGet, hen]
    | _ =>
      simp [GetSlackAttachments, Get, callGetSetting, hid, hstore, hgs] at hres

/-- C18, for the stored record {"5:30PM", "America/New_York", true} and the live
timezone "UTC": the toggle is named "Disable" and carries "false UTC". -/
theorem GetSlackAttachments_actions_witness :
    ∃ toggle : PostAction,
      toggle.Name = go "Disable"
      ∧ contextGet toggle.Integration.Context ContextKey.ContextButtonValueKey =
          some (Value.string (go "false" ++ go " " ++ go "UTC")) := by
  obtain ⟨p, _, _, _, toggle, hget, _, _, _, _, _, hen, _⟩ :=
    GetSlackAttachments_actions (go "summary")
      (fixedStore
        (Value.dailySummary
          (some { PostTime := go "5:30PM", Timezone := go "America/New_York", Enable := true }),
         none) none)
      (fixedTimezone (go "UTC", none)) (go "user") (go "/settings")
      { state := 0, calls := [] } _ rfl
  have h1 : (Value.dailySummary
        (some { PostTime := go "5:30PM", Timezone := go "America/New_York", Enable := true }),
      (none : Option GoError)) = (Value.dailySummary p, none) := hget
  injection h1 with h1 _
  injection h1 with h1
  exact ⟨toggle, hen _ h1.symm rfl⟩

/-! ## Switching the meridiem -/

end mscalendar
